import Mathlib

/-!
# Verification of the human-eval-Rust secure execution pipeline

This file gives a shallow embedding, in Lean 4, of the parts of the
`human-eval-Rust` repository that the verified claims are about:

* `human_eval/resource_monitor.py` — the bounded-concurrency admission
  controller (`ResourceMonitor`);
* `human_eval/evaluation.py` — the `pass@k` estimator;
* `human_eval/rust_execution.py` — the Unicode/homoglyph normalizer, the
  pattern policy engine, completion validation, the completion normalizer
  (`_extract_function_body`), `check_main_free`, and the per-completion
  execution orchestrator `_rust_unsafe_execute` / `rust_check_correctness`;
* `human_eval/sandbox.py` — the timeout handling of the docker/firejail
  compile wrappers, as far as it affects error classification.

Python strings are modelled as `List Nat` of Unicode code points (Python
`str` may hold lone surrogates, which `Char` cannot, and the validator's
UTF-8 check is about exactly those).  Machine floats that appear in the
sources (timeout budgets, the pass@k estimator) are modelled as exact
rationals.  The two Unicode primitives that the sources call from the
Python standard library — `str.lower` and `unicodedata.normalize("NFKD", ·)`
followed by ASCII coercion — are not repository code; they are taken as
parameters (`UOps`) and every theorem that touches them assumes only facts
the Unicode standard guarantees (both are the identity on the relevant
ASCII inputs).
-/

namespace HumanEvalRust

/-- A Python string: a list of code points.  Values `0xD800`–`0xDFFF`
(lone surrogates) are representable, matching CPython `str`. -/
abbrev PyStr := List Nat

/-- Embed a Lean string literal as a `PyStr`. -/
def pstr (s : String) : PyStr := s.data.map Char.toNat

/-- ASCII lowercase of a single code point (`A`–`Z` ↦ `a`–`z`). -/
def asciiLower (c : Nat) : Nat := if 65 ≤ c ∧ c ≤ 90 then c + 32 else c

/-- ASCII lowercase of a string.  The source applies Python `str.lower()`
to the *fixed ASCII pattern literals* of the deny list, where it agrees
with per-character ASCII lowering; this function is only ever applied to
those concrete literals. -/
def asciiLowerS (s : PyStr) : PyStr := s.map asciiLower

/-- Python whitespace (`str.isspace`, and `\s` of `re` in unicode mode):
ASCII whitespace, the C1/format controls Python treats as space, and the
Unicode `Zs`/`Zl`/`Zp` code points. -/
def pyIsSpace (c : Nat) : Bool :=
  c = 9 ∨ c = 10 ∨ c = 11 ∨ c = 12 ∨ c = 13 ∨ c = 28 ∨ c = 29 ∨ c = 30 ∨
  c = 31 ∨ c = 32 ∨ c = 133 ∨ c = 160 ∨ c = 5760 ∨
  (8192 ≤ c ∧ c ≤ 8202) ∨ c = 8232 ∨ c = 8233 ∨ c = 8239 ∨ c = 8287 ∨
  c = 12288

/-- Drop leading Python whitespace (one side of `str.strip()`). -/
def pyStripLeft (s : PyStr) : PyStr := s.dropWhile pyIsSpace

/-- Python `str.strip()` with no arguments: remove leading and trailing
whitespace. -/
def pyStrip (s : PyStr) : PyStr :=
  ((s.dropWhile pyIsSpace).reverse.dropWhile pyIsSpace).reverse

/-- Python `"\n".join(s.split("\n"))`-style splitting: split a string on
the newline code point (10).  `split` on an explicit separator keeps empty
parts, matching Python `str.split("\n")`. -/
def splitNL (s : PyStr) : List PyStr :=
  s.splitOn 10

/-- Join with newline, inverse of `splitNL` (Python `"\n".join`). -/
def joinNL (ls : List PyStr) : PyStr :=
  (ls.intersperse [10]).flatten

/-- Python `s.startswith(p)` as a boolean (structurally recursive, so
that concrete runs reduce in the kernel). -/
def startsWithB : PyStr → PyStr → Bool
  | [], _ => true
  | _ :: _, [] => false
  | a :: p, b :: s => a == b && startsWithB p s

/-- Python `sub in s` (contiguous substring containment) as a boolean. -/
def containsB (sub : PyStr) : PyStr → Bool
  | [] => startsWithB sub []
  | c :: rest => startsWithB sub (c :: rest) || containsB sub rest

/-- Decimal rendering of a natural number, as Python `str(n)` /
f-string interpolation produces for a nonnegative `int`. -/
def natStr (n : Nat) : PyStr := (toString n).data.map Char.toNat

/-! ## Admission controller — `human_eval/resource_monitor.py`

`ResourceMonitor.acquire_worker` takes the lock, refuses when host memory
utilisation is above `max_memory_percent` or when `_active_workers` has
reached `max_workers`, and otherwise increments the count; `release_worker`
sets the count to `max(0, count - 1)`.  The lock serialises the calls, so a
run of the monitor is a sequence of acquire/release events; the memory
probe `psutil.virtual_memory().percent > max_memory_percent` is an input
of each acquire event. -/

/-- One serialised call into the `ResourceMonitor`.  `acquire memOver`
is `acquire_worker` observing `memOver = (virtual_memory().percent >
max_memory_percent)`; `release` is `release_worker`. -/
inductive RMEvent : Type
  | acquire (memOver : Bool)
  | release
deriving DecidableEq, Repr

/-- `acquire_worker`: returns the new `_active_workers` count and the
boolean result of the call (Python ints are modelled as `Int`). -/
def acquireWorker (maxWorkers : Int) (active : Int) (memOver : Bool) :
    Int × Bool :=
  if memOver then (active, false)
  else if maxWorkers ≤ active then (active, false)
  else (active + 1, true)

/-- `release_worker`: `_active_workers = max(0, _active_workers - 1)`. -/
def releaseWorker (active : Int) : Int := max 0 (active - 1)

/-- The `_active_workers` count after one event. -/
def rmStep (maxWorkers : Int) (active : Int) : RMEvent → Int
  | .acquire memOver => (acquireWorker maxWorkers active memOver).1
  | .release => releaseWorker active

/-- The `_active_workers` count after a finite sequence of events,
starting from `active` (a fresh monitor starts at `0`). -/
def rmRun (maxWorkers : Int) (active : Int) (evs : List RMEvent) : Int :=
  evs.foldl (rmStep maxWorkers) active

/-! ## pass@k estimator — `human_eval/evaluation.py`

```
def estimator(n: int, c: int, k: int) -> float:
    if n - c < k:
        return 1.0
    return float(1.0 - np.prod(1.0 - k / np.arange(n - c + 1, n + 1)))
```

`np.arange(n - c + 1, n + 1)` enumerates the `c` integers
`n - c + 1, …, n`.  The float arithmetic is modelled exactly over `ℚ`. -/

/-- `∏_{j < count} (1 - k / (n - j))`: the product
`np.prod(1.0 - k / np.arange(n - count + 1, n + 1))`, built from the top
element `n` downwards so that the recursion is structural in `count`. -/
def passProd (n k : Nat) : Nat → ℚ
  | 0 => 1
  | count + 1 => (1 - (k : ℚ) / ((n - count : Nat) : ℚ)) * passProd n k count

/-- The inner `estimator(n, c, k)` of `estimate_pass_at_k`.  For the
valid inputs of the claim (`c ≤ n`), Python `n - c` agrees with
truncated natural subtraction. -/
def estimator (n c k : Nat) : ℚ :=
  if n - c < k then 1 else 1 - passProd n k c

/-- `estimate_pass_at_k` with integer `num_samples`: maps the estimator
over the per-problem correct counts. -/
def estimatePassAtK (numSamples : Nat) (numCorrect : List Nat) (k : Nat) :
    List ℚ :=
  numCorrect.map (fun c => estimator numSamples c k)

/-! ## Unicode normalization — `_normalize_unicode` and `HOMOGLYPH_MAP`

`_normalize_unicode` maps each character through `HOMOGLYPH_MAP`, applies
`unicodedata.normalize("NFKD", ·)` and then `encode("ascii", "ignore")`.
NFKD is a Python-library primitive, not repository code: it is taken as a
parameter, and theorems assume only the Unicode-standard fact that NFKD is
the identity on ASCII text.  `encode("ascii","ignore").decode("ascii")`
keeps exactly the code points below 128.  `str.lower`, used by the policy
engine before normalization, is parameterised the same way. -/

/-- The Python-library primitives used by the source that are not
repository code: `str.lower`, NFKD (as described above), and the
rendering of a `float` into an f-string (used only inside diagnostic
messages; no theorem constrains it). -/
structure UOps : Type where
  lowerF : PyStr → PyStr
  nfkdF : PyStr → PyStr
  floatRepr : ℚ → PyStr

/-- `HOMOGLYPH_MAP` of `rust_execution.py`, as (key, value) code-point
pairs, in source order: Latin small capitals, then Cyrillic look-alikes. -/
def homoglyphPairs : List (Nat × Nat) :=
  [(0x1d00, 97), (0x0299, 98), (0x1d04, 99), (0x1d05, 100), (0x1d07, 101),
   (0xa730, 102), (0x0262, 103), (0x029c, 104), (0x026a, 105), (0x1d0a, 106),
   (0x1d0b, 107), (0x029f, 108), (0x1d0d, 109), (0x0274, 110), (0x1d0f, 111),
   (0x1d18, 112), (0x0280, 114), (0xa731, 115), (0x1d1b, 116), (0x1d1c, 117),
   (0x1d20, 118), (0x1d21, 119), (0x028f, 121), (0x1d22, 122),
   (0x0430, 97), (0x0435, 101), (0x043e, 111), (0x0440, 112), (0x0441, 99),
   (0x0445, 120), (0x0443, 121), (0x0410, 65), (0x0412, 66), (0x0415, 69),
   (0x041a, 75), (0x041c, 77), (0x041d, 72), (0x041e, 79), (0x0420, 80),
   (0x0421, 67), (0x0422, 84), (0x0425, 88), (0x0427, 89)]

/-- `HOMOGLYPH_MAP.get(c, c)`. -/
def homoglyph (c : Nat) : Nat := ((homoglyphPairs.lookup c).getD c)

/-- `_normalize_unicode`: homoglyph mapping, then NFKD, then drop every
non-ASCII code point (`encode("ascii", "ignore")`). -/
def normalizeUnicode (nfkdF : PyStr → PyStr) (text : PyStr) : PyStr :=
  (nfkdF (text.map homoglyph)).filter (fun c => c < 128)

/-! ## `_strip_comments_and_strings`

Five `re.sub` passes, in source order: `//[^\n]*` → `""`,
`/\*.*?\*/` (DOTALL) → `""`, `r#*"(?:[^"\\]|\\.)*"#*` → `'""'`,
`"(?:[^"\\]|\\.)*"` → `'""'`, `'(?:[^'\\]|\\.)*'` → `"''"`.
Each pass is realised as a scanner whose behaviour coincides with the
(leftmost, backtracking) regex substitution:

* a line comment runs from `//` to the end of the line, keeping the `\n`;
* a block comment runs from `/*` to the *first* following `*/` (the
  non-greedy `.*?`); an unterminated `/*` matches nothing, and then no
  later `/*` can match either, since any terminator after it would also
  lie after the first one;
* a string/char literal body consumes either an escape pair `\c` (where
  `c` is not a newline: without DOTALL, `\\.` cannot cross `\n`, and the
  negated class cannot match the backslash itself, so the attempt fails)
  or a single character that is neither the delimiter nor a backslash,
  until the closing delimiter; if the literal is unterminated the match
  attempt at this opening fails and scanning resumes one character later,
  which is exactly what the regex engine does. -/

/-- Pass 1: `re.sub(r"//[^\n]*", "", code)`.  The flag records "currently
inside a line comment". -/
def stripLineCommentsAux : Bool → PyStr → PyStr
  | _, [] => []
  | true, c :: rest =>
    if c = 10 then c :: stripLineCommentsAux false rest
    else stripLineCommentsAux true rest
  | false, c :: d :: rest2 =>
    if c = 47 ∧ d = 47 then stripLineCommentsAux true rest2
    else c :: stripLineCommentsAux false (d :: rest2)
  | false, [c] => [c]

/-- Pass 1 entry point. -/
def stripLineComments (s : PyStr) : PyStr := stripLineCommentsAux false s

/-- Whether `*/` occurs somewhere in the string. -/
def hasStarSlash : PyStr → Bool
  | [] => false
  | c :: rest =>
    match rest with
    | d :: _ => if c = 42 ∧ d = 47 then true else hasStarSlash rest
    | [] => false

/-- Pass 2: `re.sub(r"/\*.*?\*/", "", code, flags=re.DOTALL)`.  A `/*` is
consumed only when a terminator exists after it; the flag records
"currently inside a block comment". -/
def stripBlockCommentsAux : Bool → PyStr → PyStr
  | _, [] => []
  | true, c :: d :: rest2 =>
    if c = 42 ∧ d = 47 then stripBlockCommentsAux false rest2
    else stripBlockCommentsAux true (d :: rest2)
  | true, [_] => []
  | false, c :: d :: rest2 =>
    if c = 47 ∧ d = 42 ∧ hasStarSlash rest2 then
      stripBlockCommentsAux true rest2
    else c :: stripBlockCommentsAux false (d :: rest2)
  | false, [c] => [c]

/-- Pass 2 entry point. -/
def stripBlockComments (s : PyStr) : PyStr := stripBlockCommentsAux false s

/-- Body of a string/char literal with delimiter `qc`, after its opening
delimiter: `(?:[^q\\]|\\.)*q`.  Returns the number of characters consumed
up to and including the closing delimiter, or `none` if the attempt
fails (unterminated, or a backslash before a newline / at end). -/
def litBody (qc : Nat) : PyStr → Option Nat
  | [] => none
  | c :: rest =>
    if c = qc then some 1
    else if c = 92 then
      match rest with
      | [] => none
      | d :: rest2 =>
        if d = 10 then none else (litBody qc rest2).map (· + 2)
    else (litBody qc rest).map (· + 1)

/-- Length of the leading run of character `c`. -/
def countLeading (c : Nat) (s : PyStr) : Nat := (s.takeWhile (· = c)).length

/-- After an `r`, try to match `#*"(?:[^"\\]|\\.)*"#*`.  Returns the
number of characters consumed after the `r`. -/
def tryRawAfterR (s : PyStr) : Option Nat :=
  match (s.drop (countLeading 35 s)).head? with
  | some 34 =>
    match litBody 34 (s.drop (countLeading 35 s + 1)) with
    | some b => some (countLeading 35 s + 1 + b +
        countLeading 35 (s.drop (countLeading 35 s + 1 + b)))
    | none => none
  | _ => none

/-- Pass 3: `re.sub(r'r#*"(?:[^"\\]|\\.)*"#*', '""', code)`.  The
first argument is the number of already-matched characters still to be
skipped (`skipStrip k s` consumes `k` characters and resumes scanning),
keeping the recursion structural in the string. -/
def stripRawStringsAux : Nat → PyStr → PyStr
  | _ + 1, [] => []
  | k + 1, _ :: rest => stripRawStringsAux k rest
  | 0, [] => []
  | 0, c :: rest =>
    if c = 114 then
      match tryRawAfterR rest with
      | some n => 34 :: 34 :: stripRawStringsAux n rest
      | none => c :: stripRawStringsAux 0 rest
    else c :: stripRawStringsAux 0 rest

/-- Pass 3 entry point. -/
def stripRawStrings (s : PyStr) : PyStr := stripRawStringsAux 0 s

/-- Pass 4: `re.sub(r'"(?:[^"\\]|\\.)*"', '""', code)`, with the same
skip-counter shape as pass 3. -/
def stripStringsAux : Nat → PyStr → PyStr
  | _ + 1, [] => []
  | k + 1, _ :: rest => stripStringsAux k rest
  | 0, [] => []
  | 0, c :: rest =>
    if c = 34 then
      match litBody 34 rest with
      | some n => 34 :: 34 :: stripStringsAux n rest
      | none => c :: stripStringsAux 0 rest
    else c :: stripStringsAux 0 rest

/-- Pass 4 entry point. -/
def stripStrings (s : PyStr) : PyStr := stripStringsAux 0 s

/-- Pass 5: `re.sub(r"'(?:[^'\\]|\\.)*'", "''", code)`, with the same
skip-counter shape. -/
def stripCharsAux : Nat → PyStr → PyStr
  | _ + 1, [] => []
  | k + 1, _ :: rest => stripCharsAux k rest
  | 0, [] => []
  | 0, c :: rest =>
    if c = 39 then
      match litBody 39 rest with
      | some n => 39 :: 39 :: stripCharsAux n rest
      | none => c :: stripCharsAux 0 rest
    else c :: stripCharsAux 0 rest

/-- Pass 5 entry point. -/
def stripChars (s : PyStr) : PyStr := stripCharsAux 0 s

/-- `_strip_comments_and_strings`: the five passes in source order. -/
def stripCommentsAndStrings (code : PyStr) : PyStr :=
  stripChars (stripStrings (stripRawStrings
    (stripBlockComments (stripLineComments code))))

/-! ## Pattern policy engine — `_sanitize_rust_completion` -/

/-- `DISALLOWED_COMPLETION_PATTERNS`, verbatim and in source order
(duplicates included). -/
def disallowedPatterns : List PyStr :=
  [pstr "std::fs", pstr "std::path", pstr "std::io::write", pstr "std::io::read",
  pstr "std::io::copy", pstr "std::io::create", pstr "std::io::remove", pstr "std::io::rename",
  pstr "std::io::metadata", pstr "std::io::symlink", pstr "std::io::hard_link", pstr "std::io::canonicalize",
  pstr "std::io::read_dir", pstr "std::io::read_to_string", pstr "std::io::read_to_end", pstr "std::io::read_exact",
  pstr "std::io::write_all", pstr "std::io::write_fmt", pstr "std::io::flush", pstr "std::io::seek",
  pstr "std::io::set_permissions", pstr "std::io::remove_file", pstr "std::io::remove_dir", pstr "std::io::remove_dir_all",
  pstr "std::io::create_dir", pstr "std::io::create_dir_all", pstr "std::io::rename", pstr "std::io::copy",
  pstr "std::io::hard_link", pstr "std::io::symlink_metadata", pstr "std::io::read_link", pstr "std::io::canonicalize",
  pstr "std::io::File::create", pstr "std::io::File::open", pstr "std::io::File::create_new", pstr "std::io::File::read",
  pstr "std::io::File::write", pstr "std::process", pstr "std::process::Command", pstr "std::process::Command::new",
  pstr "std::process::Command::spawn", pstr "std::process::Command::output", pstr "std::process::Command::status", pstr "std::process::exit",
  pstr "std::process::abort", pstr "std::process::id", pstr "std::process::parent_id", pstr "command::new",
  pstr "command::spawn", pstr "command::output", pstr "std::net", pstr "std::net::TcpStream",
  pstr "std::net::TcpListener", pstr "std::net::UdpSocket", pstr "std::net::UnixStream", pstr "std::net::UnixListener",
  pstr "std::net::SocketAddr", pstr "std::net::IpAddr", pstr "std::net::Ipv4Addr", pstr "std::net::Ipv6Addr",
  pstr "std::net::ToSocketAddrs", pstr "std::net::lookup_host", pstr "reqwest", pstr "ureq",
  pstr "hyper", pstr "tokio::net", pstr "tokio::net::TcpStream", pstr "tokio::net::TcpListener",
  pstr "tokio::net::UdpSocket", pstr "tokio::net::UnixStream", pstr "tokio::net::UnixListener", pstr "std::thread",
  pstr "std::thread::spawn", pstr "std::thread::Builder", pstr "std::thread::Thread", pstr "std::thread::park",
  pstr "std::thread::yield_now", pstr "std::thread::sleep", pstr "std::thread::available_parallelism", pstr "std::sync::mpsc",
  pstr "std::sync::mpsc::channel", pstr "std::sync::mpsc::sync_channel", pstr "std::sync::Arc", pstr "std::sync::Mutex",
  pstr "std::sync::RwLock", pstr "std::sync::Condvar", pstr "std::sync::Barrier", pstr "std::sync::Once",
  pstr "std::sync::atomic", pstr "tokio::spawn", pstr "tokio::task", pstr "tokio::runtime",
  pstr "unsafe", pstr "unsafe fn", pstr "unsafe trait", pstr "unsafe impl",
  pstr "unsafe block", pstr "unsafe \x7b\x7d", pstr "std::alloc", pstr "std::alloc::alloc",
  pstr "std::alloc::dealloc", pstr "std::alloc::realloc", pstr "std::alloc::Layout", pstr "std::ptr",
  pstr "std::ptr::null", pstr "std::ptr::null_mut", pstr "std::ptr::read", pstr "std::ptr::write",
  pstr "std::ptr::copy", pstr "std::ptr::copy_nonoverlapping", pstr "std::ptr::swap", pstr "std::ptr::replace",
  pstr "std::ptr::drop_in_place", pstr "std::mem", pstr "std::mem::forget", pstr "std::mem::transmute",
  pstr "std::mem::zeroed", pstr "std::mem::uninitialized", pstr "std::mem::replace", pstr "std::mem::swap",
  pstr "std::mem::take", pstr "std::mem::size_of", pstr "std::mem::align_of", pstr "std::mem::size_of_val",
  pstr "std::mem::align_of_val", pstr "std::mem::needs_drop", pstr "std::mem::drop", pstr "std::mem::forget",
  pstr "std::mem::transmute", pstr "std::mem::zeroed", pstr "std::mem::uninitialized", pstr "std::mem::MaybeUninit",
  pstr "std::env", pstr "std::env::var", pstr "std::env::vars", pstr "std::env::set_var",
  pstr "std::env::remove_var", pstr "std::env::current_dir", pstr "std::env::set_current_dir", pstr "std::env::args",
  pstr "std::env::args_os", pstr "std::env::consts", pstr "std::env::home_dir", pstr "std::env::temp_dir",
  pstr "std::time::SystemTime", pstr "std::time::UNIX_EPOCH", pstr "std::time::Duration", pstr "std::os",
  pstr "std::os::unix", pstr "std::os::windows", pstr "std::os::linux", pstr "std::os::macos",
  pstr "extern", pstr "extern \"C\"", pstr "extern \"system\"", pstr "libc",
  pstr "winapi", pstr "std::ffi", pstr "std::ffi::CString", pstr "std::ffi::CStr",
  pstr "std::ffi::OsString", pstr "std::ffi::OsStr", pstr "std::ffi::NulError", pstr "std::signal",
  pstr "libc::signal", pstr "std::panic", pstr "std::panic::panic", pstr "std::panic::panic_any",
  pstr "std::panic::set_hook", pstr "std::panic::take_hook", pstr "std::panic::catch_unwind", pstr "std::panic::resume_unwind",
  pstr "std::panic::AssertUnwindSafe", pstr "include!", pstr "include_str!", pstr "include_bytes!",
  pstr "env!", pstr "option_env!", pstr "concat!", pstr "file!",
  pstr "line!", pstr "column!", pstr "module_path!", pstr "asm!",
  pstr "global_asm!", pstr "#[link", pstr "#[no_mangle]", pstr "#[export_name",
  pstr "build.rs", pstr "proc_macro", pstr "std::intrinsics", pstr "core::intrinsics"]

/-- `SAFE_DERIVE_MACROS`. -/
def safeDeriveMacros : List PyStr :=
  [pstr "Debug", pstr "Clone", pstr "Copy", pstr "PartialEq", pstr "Eq",
   pstr "PartialOrd", pstr "Ord", pstr "Hash", pstr "Default", pstr "Display"]

/-- The deny-list loop: first pattern whose lowering occurs in the
stripped text (`if pattern.lower() in stripped`); the patterns are fixed
ASCII literals, for which `str.lower` is per-character ASCII lowering. -/
def findDisallowed (stripped : PyStr) : Option PyStr :=
  disallowedPatterns.find? (fun p => containsB (asciiLowerS p) stripped)

/-- After a literal `#[derive`, try `\s*\(([^)]+)\)`.  Returns the group
and the number of characters consumed after `#[derive`. -/
def tryDeriveTail (s : PyStr) : Option (PyStr × Nat) :=
  let w := (s.takeWhile pyIsSpace).length
  match (s.drop w).head? with
  | some 40 =>
    let afterParen := s.drop (w + 1)
    let g := afterParen.takeWhile (fun c => ¬ c = 41)
    if g = [] then none
    else match (afterParen.drop g.length).head? with
      | some 41 => some (g, w + 1 + g.length + 1)
      | _ => none
  | _ => none

/-- `re.finditer(r"#\[derive\s*\(([^)]+)\)", stripped)`: all group-1
contents, leftmost first, continuing after each match (the scan is only
ever applied to already-lowercased text, so `re.IGNORECASE` is inert
here). -/
def deriveGroupsAux : Nat → PyStr → List PyStr
  | _ + 1, [] => []
  | k + 1, _ :: rest => deriveGroupsAux k rest
  | 0, [] => []
  | 0, c :: rest =>
    if startsWithB (pstr "#[derive") (c :: rest) then
      match tryDeriveTail ((c :: rest).drop 8) with
      | some (g, n) => g :: deriveGroupsAux (8 + n - 1) rest
      | none => deriveGroupsAux 0 rest
    else deriveGroupsAux 0 rest

/-- `finditer` entry point (a match consumes `8 + n ≥ 9` characters, one
via the head and the rest via the skip counter). -/
def deriveGroups (s : PyStr) : List PyStr := deriveGroupsAux 0 s

/-- Python `'::'.split` of a derive entry (two-character separator,
leftmost non-overlapping). -/
def splitColonColon : PyStr → List PyStr
  | [] => [[]]
  | c :: d :: rest2 =>
    if c = 58 ∧ d = 58 then [] :: splitColonColon rest2
    else
      match splitColonColon (d :: rest2) with
      | seg :: segs => (c :: seg) :: segs
      | [] => [[c]]
  | [c] => [[c]]

/-- `dangerous_keywords` of the derive check. -/
def dangerousKeywords : List PyStr :=
  [pstr "unsafe", pstr "arbitrary", pstr "deserialize", pstr "serialize"]

/-- One derive entry: `d.strip()`, then the last `::` segment stripped;
flag it when it is nonempty, not a safe derive, and its lowering contains
a dangerous keyword. -/
def deriveEntryViolation (d : PyStr) : Option PyStr :=
  let deriveName := pyStrip ((splitColonColon (pyStrip d)).getLastD [])
  if deriveName ≠ [] ∧ ¬ deriveName ∈ safeDeriveMacros ∧
      dangerousKeywords.any (fun kw => containsB kw (asciiLowerS deriveName))
  then some deriveName else none

/-- The whole derive special case: first flagged entry over all matches
(group split on `,`, entries in order). -/
def deriveViolation (stripped : PyStr) : Option PyStr :=
  (deriveGroups stripped).findSome? (fun g =>
    (g.splitOn 44).findSome? deriveEntryViolation)

/-- Case-insensitive keyword of the raw-string check at the head of `s`:
`unsafe`, `std::fs` or `std::process`; returns its length. -/
def rawKwHere (s : PyStr) : Option Nat :=
  if startsWithB (pstr "unsafe") (asciiLowerS (s.take 6)) then some 6
  else if startsWithB (pstr "std::fs") (asciiLowerS (s.take 7)) then some 7
  else if startsWithB (pstr "std::process") (asciiLowerS (s.take 12)) then some 12
  else none

/-- From a position after an opening quote: does some keyword occurrence
have a `"` at or after its end?  This is exactly when the backtracking
engine can complete `.*?(kw).*?\"` (the tail `#*` may be empty). -/
def rawKwThenQuote : PyStr → Bool
  | [] => false
  | c :: rest =>
    (match rawKwHere (c :: rest) with
     | some n => decide (34 ∈ (c :: rest).drop n)
     | none => false) ||
    rawKwThenQuote rest

/-- `re.search(r"r#*\".*?(unsafe|std::fs|std::process).*?\"#*", completion,
re.IGNORECASE | re.DOTALL)` as a boolean, on the original (unstripped)
completion.  `rawOpenHere` handles the `#*\"` fence after the `r`. -/
def rawOpenHere (rest : PyStr) : Bool :=
  match (rest.drop (countLeading 35 rest)).head? with
  | some 34 => rawKwThenQuote (rest.drop (countLeading 35 rest + 1))
  | _ => false

/-- The scan itself: an `r` (case-insensitive), the hash fence, the
opening quote, then a keyword with a closing quote after it. -/
def rawStrSearch : PyStr → Bool
  | [] => false
  | c :: rest =>
    (asciiLower c = 114 && rawOpenHere rest) || rawStrSearch rest

/-- `_sanitize_rust_completion`: lower, normalize, strip, deny-list scan,
derive special case, raw-string check — in source order.  Returns the
violation message, or `none` for a clean completion. -/
def sanitizeRustCompletion (U : UOps) (completion : PyStr) : Option PyStr :=
  let normalized := normalizeUnicode U.nfkdF (U.lowerF completion)
  let stripped := stripCommentsAndStrings normalized
  match findDisallowed stripped with
  | some p => some (pstr "disallowed usage of " ++ p)
  | none =>
    match deriveViolation stripped with
    | some d => some (pstr "disallowed derive macro: " ++ d)
    | none =>
      if rawStrSearch completion then
        some (pstr "disallowed pattern in raw string")
      else none

/-! ## Completion validation — `_validate_completion`

The only operation in the validator that can raise is
`completion.encode("utf-8")`, which for a CPython `str` fails exactly on
lone surrogates (every other `str` code point is UTF-8-encodable); the
source wraps it in `try/except UnicodeEncodeError`. -/

/-- `MAX_COMPLETION_LENGTH`. -/
def maxCompletionLength : Nat := 100000

/-- `MAX_COMPLETION_LINES`. -/
def maxCompletionLines : Nat := 5000

/-- `completion.encode("utf-8")`: errors exactly on lone surrogates. -/
def encodeUtf8 (s : PyStr) : Except Unit Unit :=
  if s.any (fun c => 55296 ≤ c ∧ c ≤ 57343) then .error () else .ok ()

/-- `_validate_completion`: returns the error message, or `none` when the
completion is acceptable.  The guards are checked in source order. -/
def validateCompletion (s : PyStr) : Option PyStr :=
  if s = [] then some (pstr "empty completion")
  else if maxCompletionLength < s.length then
    some (pstr "completion too long (" ++ natStr s.length ++ pstr " > " ++
      natStr maxCompletionLength ++ pstr ")")
  else if maxCompletionLines < s.count 10 then
    some (pstr "too many lines (> " ++ natStr maxCompletionLines ++ pstr ")")
  else if 0 ∈ s then some (pstr "null byte in completion")
  else
    match encodeUtf8 s with
    | .error _ => some (pstr "invalid UTF-8 encoding")
    | .ok _ => none

/-! ## `check_main_free`

Same comment passes as the sanitizer, then a single string pass for
`r?"(?:[^"\\]|\\.)*"` (one optional `r`, no `#` fences), the char pass,
and a search for `fn\s+main\s*\(` (IGNORECASE; the literals are ASCII, so
ASCII folding realises it). -/

/-- `re.sub(r'r?"(?:[^"\\]|\\.)*"', '""', code)`. -/
def stripStringsOptRAux : Nat → PyStr → PyStr
  | _ + 1, [] => []
  | k + 1, _ :: rest => stripStringsOptRAux k rest
  | 0, [] => []
  | 0, c :: rest =>
    if c = 114 ∧ rest.head? = some 34 then
      match litBody 34 (rest.drop 1) with
      | some n => 34 :: 34 :: stripStringsOptRAux (1 + n) rest
      | none => c :: stripStringsOptRAux 0 rest
    else if c = 34 then
      match litBody 34 rest with
      | some n => 34 :: 34 :: stripStringsOptRAux n rest
      | none => c :: stripStringsOptRAux 0 rest
    else c :: stripStringsOptRAux 0 rest

/-- Entry point of the `r?"…"` pass. -/
def stripStringsOptR (s : PyStr) : PyStr := stripStringsOptRAux 0 s

/-- Does `fn\s+main\s*\(` match at the head of `s` (ASCII-folded)? -/
def fnMainCallHere (s : PyStr) : Bool :=
  startsWithB (pstr "fn") (asciiLowerS (s.take 2)) &&
  (let r1 := s.drop 2
   let w1 := (r1.takeWhile pyIsSpace).length
   decide (1 ≤ w1) &&
   startsWithB (pstr "main") (asciiLowerS ((r1.drop w1).take 4)) &&
   (let r2 := (r1.drop w1).drop 4
    let w2 := (r2.takeWhile pyIsSpace).length
    decide ((r2.drop w2).head? = some 40)))

/-- `re.search(r"fn\s+main\s*\(", code, re.IGNORECASE)` as a boolean. -/
def searchFnMainCall : PyStr → Bool
  | [] => false
  | c :: rest => fnMainCallHere (c :: rest) || searchFnMainCall rest

/-- `check_main_free`: strip comments, strings and chars, then report
whether no `fn main(` pattern remains. -/
def checkMainFree (completion : PyStr) : Bool :=
  let code := stripChars (stripStringsOptR
    (stripBlockComments (stripLineComments completion)))
  ¬ searchFnMainCall code

/-! ## Completion normalizer — `_extract_function_body` and helpers -/

/-- Index of the first occurrence of `needle` in `s`. -/
def findSubIdx (needle : PyStr) : PyStr → Option Nat
  | [] => if needle = [] then some 0 else none
  | c :: rest =>
    if startsWithB needle (c :: rest) then some 0
    else (findSubIdx needle rest).map (· + 1)

/-- `_strip_markdown_code_blocks`.  For the tagged pattern
`` ```rust\s*(.*?)\s*``` `` the group is the text between the opener and
the first following `` ``` ``, trimmed (the flexible `\s*` boundaries
amount to trimming).  For the generic pattern `` ```[^\n]*\s*(.*?)\s*``` ``
the greedy tag prefers the whole rest of the opener's line, so the group
is the text between that line and the first following `` ``` ``; when the
only closer lies on the opener's line itself the group is empty.  With no
closer the regex fails and the completion is returned unchanged. -/
def stripMarkdownCodeBlocks (s : PyStr) : PyStr :=
  if containsB (pstr "```rust") s then
    match findSubIdx (pstr "```rust") s with
    | some i =>
      let after := s.drop (i + 7)
      match findSubIdx (pstr "```") after with
      | some j => pyStrip (after.take j)
      | none => s
    | none => s
  else if containsB (pstr "```") s then
    match findSubIdx (pstr "```") s with
    | some i =>
      let after := s.drop (i + 3)
      match findSubIdx [10] after with
      | some k =>
        match findSubIdx (pstr "```") (after.drop (k + 1)) with
        | some j => pyStrip ((after.drop (k + 1)).take j)
        | none =>
          match findSubIdx (pstr "```") (after.take k) with
          | some _ => []
          | none => s
      | none =>
        match findSubIdx (pstr "```") after with
        | some _ => []
        | none => s
    | none => s
  else s

/-- `_strip_leading_attributes`: drop each line whose stripped form
starts with `#[` but not `#![`. -/
def stripLeadingAttributes (s : PyStr) : PyStr :=
  joinNL ((splitNL s).filter (fun line =>
    ¬ (startsWithB (pstr "#[") (pyStrip line) ∧
       ¬ startsWithB (pstr "#![") (pyStrip line))))

/-- `_find_matching_brace` body: running depth over the text; at a `}`
that brings the depth to zero, return the index *after* it. -/
def findMatchingBraceAux : Int → Nat → PyStr → Option Nat
  | _, _, [] => none
  | cnt, i, c :: rest =>
    if c = 123 then findMatchingBraceAux (cnt + 1) (i + 1) rest
    else if c = 125 then
      if cnt - 1 = 0 then some (i + 1)
      else findMatchingBraceAux (cnt - 1) (i + 1) rest
    else findMatchingBraceAux cnt (i + 1) rest

/-- `_find_matching_brace(text, 0)` on a suffix of the text. -/
def findMatchingBrace (s : PyStr) : Option Nat := findMatchingBraceAux 0 0 s

/-- The tail `\s*\(` after the generics of the strict function pattern:
`<[^>]*>?\s*\(`, entered just after the `<`.  Greedy preference: the run
up to the first `>` with the `>` consumed, else (backtracking inside the
run, where the `>?` is empty and only whitespace may stand between the
run's end and the parenthesis, the longest run ending at a parenthesis)
the last `(` inside the run. -/
def genericTail (s : PyStr) : Option Nat :=
  let q := (s.takeWhile (fun c => ¬ c = 62)).length
  let viaGt :=
    if (s.drop q).head? = some 62 then
      let w := ((s.drop (q + 1)).takeWhile pyIsSpace).length
      if (s.drop (q + 1 + w)).head? = some 40 then some (q + 1 + w + 1)
      else none
    else none
  match viaGt with
  | some n => some n
  | none =>
    match (List.range q).filterMap
        (fun p => if (s.drop p).head? = some 40 then some p else none) with
    | [] => none
    | ps => ps.getLast?.map (· + 1)

/-- `\([^)]*\)`: consume through the first `)`, starting at the `(`. -/
def parenTail (s : PyStr) : Option Nat :=
  match s.head? with
  | some 40 =>
    let r := (s.drop 1).takeWhile (fun c => ¬ c = 41)
    if (s.drop (1 + r.length)).head? = some 41 then some (1 + r.length + 1)
    else none
  | _ => none

/-- The optional where clause and closing brace of the strict pattern:
`(?:where\s+[^{}]+)?\s*\{`, after leading whitespace was consumed.
Returns the count consumed through the `{`. -/
def whereBraceTail (s : PyStr) : Option Nat :=
  let viaWhere :=
    if startsWithB (pstr "where") s then
      let w1 := ((s.drop 5).takeWhile pyIsSpace).length
      if w1 = 0 then none
      else
        let u := s.drop (5 + w1)
        let r := u.takeWhile (fun c => ¬ c = 123 ∧ ¬ c = 125)
        if r = [] then none
        else if (u.drop r.length).head? = some 123 then
          some (5 + w1 + r.length + 1)
        else none
    else none
  match viaWhere with
  | some n => some n
  | none => if s.head? = some 123 then some 1 else none

/-- `\s*(?:where\s+[^{}]+)?\s*\{`. -/
def strictBraceTail (s : PyStr) : Option Nat :=
  let w := (s.takeWhile pyIsSpace).length
  (whereBraceTail (s.drop w)).map (w + ·)

/-- The optional return type of the strict pattern:
`(?:->\s*[^{}where]+)?` followed by `strictBraceTail`.  The class run is
tried greedily from its maximal length down (`r` is the attempted
length); on total failure the group is dropped. -/
def strictRetTry (s : PyStr) : Nat → Option Nat
  | 0 => none
  | r + 1 =>
    match strictBraceTail (s.drop (r + 1)) with
    | some t => some (r + 1 + t)
    | none => strictRetTry s r

/-- `(?:->\s*[^{}where]+)?\s*(?:where\s+[^{}]+)?\s*\{` after the `)`
and its following whitespace. -/
def strictAfterParen (s : PyStr) : Option Nat :=
  let viaRet :=
    if startsWithB (pstr "->") s then
      let w := ((s.drop 2).takeWhile pyIsSpace).length
      let body := s.drop (2 + w)
      let m := (body.takeWhile (fun c =>
        ¬ c = 123 ∧ ¬ c = 125 ∧ ¬ c = 119 ∧ ¬ c = 104 ∧ ¬ c = 101 ∧
        ¬ c = 114)).length
      (strictRetTry body m).map (2 + w + ·)
    else none
  match viaRet with
  | some n => some n
  | none => strictBraceTail s

/-- Strict pattern
`fn\s+{entry}\s*<[^>]*>?\s*\([^)]*\)\s*(?:->\s*[^{}where]+)?\s*(?:where\s+[^{}]+)?\s*\{`
at the head of `s`; returns the index of the `{` (that is,
`fn_match.end() - 1`). -/
def strictFnHere (ep s : PyStr) : Option Nat :=
  if startsWithB (pstr "fn") s then
    let r1 := s.drop 2
    let w1 := (r1.takeWhile pyIsSpace).length
    if w1 = 0 then none
    else if startsWithB ep (r1.drop w1) then
      let r2 := (r1.drop w1).drop ep.length
      let w2 := (r2.takeWhile pyIsSpace).length
      match (r2.drop w2).head? with
      | some 60 =>
        match genericTail (r2.drop (w2 + 1)) with
        | some gt =>
          let afterP := r2.drop (w2 + 1 + gt - 1)
          match parenTail afterP with
          | some pt =>
            let w3 := ((afterP.drop pt).takeWhile pyIsSpace).length
            match strictAfterParen ((afterP.drop pt).drop w3) with
            | some at2 => some (2 + w1 + ep.length + w2 + 1 + (gt - 1) + pt + w3 + at2 - 1)
            | none => none
          | none => none
        | none => none
      | _ => none
    else none
  else none

/-- Simple fallback return/brace tail: `(?:->[^{]*)?\s*\{` after the `)`.
With `->` present, the class runs to the first `{`, which closes the
pattern; otherwise only whitespace may precede the `{`. -/
def simpleBraceTail (s : PyStr) : Option Nat :=
  let w := (s.takeWhile pyIsSpace).length
  let t := s.drop w
  if startsWithB (pstr "->") t then
    let r := (t.drop 2).takeWhile (fun c => ¬ c = 123)
    if (t.drop (2 + r.length)).head? = some 123 then
      some (w + 2 + r.length + 1)
    else none
  else if t.head? = some 123 then some (w + 1)
  else none

/-- Fallback pattern `fn\s+{entry}\s*\([^)]*\)\s*(?:->[^{]*)?\s*\{` at
the head of `s`; returns the index of the `{`. -/
def simpleFnHere (ep s : PyStr) : Option Nat :=
  if startsWithB (pstr "fn") s then
    let r1 := s.drop 2
    let w1 := (r1.takeWhile pyIsSpace).length
    if w1 = 0 then none
    else if startsWithB ep (r1.drop w1) then
      let r2 := (r1.drop w1).drop ep.length
      let w2 := (r2.takeWhile pyIsSpace).length
      match parenTail (r2.drop w2) with
      | some pt =>
        match simpleBraceTail ((r2.drop w2).drop pt) with
        | some bt => some (2 + w1 + ep.length + w2 + pt + bt - 1)
        | none => none
      | none => none
    else none
  else none

/-- `re.search` for a head matcher returning a position: leftmost match
wins; the returned index is absolute. -/
def searchPos (f : PyStr → Option Nat) : PyStr → Option Nat
  | [] => f []
  | c :: rest =>
    match f (c :: rest) with
    | some n => some n
    | none => (searchPos f rest).map (· + 1)

/-- `_extract_target_function_body`: strict pattern first, else the
fallback; then brace matching from the found `{`, returning the interior,
stripped.  A match whose brace is unterminated yields `none`. -/
def extractTargetFunctionBody (text ep : PyStr) : Option PyStr :=
  let posA := searchPos (strictFnHere ep) text
  let pos :=
    match posA with
    | some p => some p
    | none => searchPos (simpleFnHere ep) text
  match pos with
  | some p =>
    match findMatchingBrace (text.drop p) with
    | some e => some (pyStrip (((text.drop p).take e).drop 1 |>.dropLast))
    | none => none
  | none => none

/-- `_extract_body_from_braces`. -/
def extractBodyFromBraces (text : PyStr) : Option PyStr :=
  let stripped := pyStrip text
  match stripped.head? with
  | some 123 =>
    match findMatchingBrace stripped with
    | some e => some (pyStrip ((stripped.take (e - 1)).drop 1))
    | none => some (pyStrip (stripped.drop 1))
  | _ => none

/-- `line.count("{") - line.count("}")` as an integer. -/
def braceDelta (line : PyStr) : Int :=
  (line.count 123 : Int) - (line.count 125 : Int)

/-- Head matcher of `_remove_main_functions`:
`re.match(r"^fn\s+main\s*\([^)]*\)\s*(?:->[^{]*)?\s*\{", stripped)`. -/
def fnMainHeader (line : PyStr) : Bool :=
  (simpleFnHere (pstr "main") (pyStrip line)).isSome

/-- The line loop of `_remove_main_functions`.  Mode `none`: normal
scanning.  Mode `some (true, cnt)`: the inner `while` that consumes lines
while `cnt > 0` *without* re-checking the header regex.  Mode
`some (false, cnt)`: the `in_main` flag is still set after the inner loop
finished; the header regex is checked first, otherwise the line is
consumed and the flag is cleared once the running count is ≤ 0. -/
def removeMainAux : Option (Bool × Int) → List PyStr → List PyStr
  | _, [] => []
  | none, line :: rest =>
    if fnMainHeader line then removeMainAux (some (true, 1)) rest
    else line :: removeMainAux none rest
  | some (true, cnt), line :: rest =>
    if 0 < cnt then removeMainAux (some (true, cnt + braceDelta line)) rest
    else if fnMainHeader line then removeMainAux (some (true, 1)) rest
    else if cnt + braceDelta line ≤ 0 then removeMainAux none rest
    else removeMainAux (some (false, cnt + braceDelta line)) rest
  | some (false, cnt), line :: rest =>
    if fnMainHeader line then removeMainAux (some (true, 1)) rest
    else if cnt + braceDelta line ≤ 0 then removeMainAux none rest
    else removeMainAux (some (false, cnt + braceDelta line)) rest

/-- `_remove_main_functions`. -/
def removeMainFunctions (text : PyStr) : PyStr :=
  pyStrip (joinNL (removeMainAux none (splitNL text)))

/-- The example-usage phrase of `_clean_extra_patterns`:
`(example\s+usage|usage\s+example):` at the head (ASCII case folding). -/
def exampleUsageHere (s : PyStr) : Bool :=
  (startsWithB (pstr "example") (asciiLowerS (s.take 7)) &&
   (let w := ((s.drop 7).takeWhile pyIsSpace).length
    decide (1 ≤ w) &&
    startsWithB (pstr "usage:") (asciiLowerS ((s.drop (7 + w)).take 6)))) ||
  (startsWithB (pstr "usage") (asciiLowerS (s.take 5)) &&
   (let w := ((s.drop 5).takeWhile pyIsSpace).length
    decide (1 ≤ w) &&
    startsWithB (pstr "example:") (asciiLowerS ((s.drop (5 + w)).take 8))))

/-- A match of `(//\s*)?(example\s+usage|usage\s+example):` at the head:
with the comment prefix, or bare. -/
def cleanPatternHere (s : PyStr) : Bool :=
  (startsWithB (pstr "//") s &&
   (let w := ((s.drop 2).takeWhile pyIsSpace).length
    exampleUsageHere (s.drop (2 + w)))) ||
  exampleUsageHere s

/-- First regex of `_clean_extra_patterns`: on a match, `.*` with DOTALL
deletes to the end of the string. -/
def cleanExampleUsage : PyStr → PyStr
  | [] => []
  | c :: rest =>
    if cleanPatternHere (c :: rest) then []
    else c :: cleanExampleUsage rest

/-- Head of the second `_clean_extra_patterns` regex:
`use\s+std::collections::Vec;?` — returns the number of characters
consumed. -/
def useVecHead (s : PyStr) : Option Nat :=
  if startsWithB (pstr "use") s then
    let w := ((s.drop 3).takeWhile pyIsSpace).length
    if w = 0 then none
    else if startsWithB (pstr "std::collections::Vec") (s.drop (3 + w)) then
      let q := 3 + w + 21
      some (if (s.drop q).head? = some 59 then q + 1 else q)
    else none
  else none

/-- The `\s*$` tail of that regex (MULTILINE): the greedy whitespace run
after position `q` ends at the furthest point where `$` holds — the end
of the string if the run reaches it, else just before the last newline
inside the run.  Returns the absolute match end, or `none` when no `$`
position exists. -/
def useVecEnd (s : PyStr) (q : Nat) : Option Nat :=
  let run := (s.drop q).takeWhile pyIsSpace
  if q + run.length = s.length then some (q + run.length)
  else
    match (List.range run.length).filterMap
        (fun j => if run.get? j = some 10 then some (q + j) else none) with
    | [] => none
    | ps => ps.getLast?

/-- A full match of `^use\s+std::collections::Vec;?\s*$` at the head of
a suffix that begins at a line start. -/
def useVecMatch (s : PyStr) : Option Nat :=
  (useVecHead s).bind (useVecEnd s)

/-- `re.sub(r"^use\s+std::collections::Vec;?\s*$", "", result,
flags=re.MULTILINE)`: at each line start, delete a match and resume at
its end (any match consumes at least four characters, so recursing on
`rest.drop (e - 1)` deletes exactly the matched span). -/
def removeUseVecAux : Nat → Bool → PyStr → PyStr
  | _ + 1, _, [] => []
  | k + 1, _, _ :: rest => removeUseVecAux k false rest
  | 0, _, [] => []
  | 0, atStart, c :: rest =>
    if atStart then
      match useVecMatch (c :: rest) with
      | some e => removeUseVecAux (e - 1) false rest
      | none => c :: removeUseVecAux 0 (c == 10) rest
    else c :: removeUseVecAux 0 (c == 10) rest

/-- `_clean_extra_patterns`: the usage-comment deletion, then the
`use std::collections::Vec` line removal, and a final strip.  (A match
always spans at least four characters, so consuming its head plus
`e - 1` skipped characters deletes exactly the matched span.) -/
def cleanExtraPatterns (text : PyStr) : PyStr :=
  let r1 := cleanExampleUsage text
  pyStrip (removeUseVecAux 0 true r1)

/-- `_extract_function_body`: markdown stripping, leading-attribute
stripping, target-function extraction, brace-body extraction, and the
main-removal/cleanup fallback — in source order. -/
def extractFunctionBody (completion ep : PyStr) : PyStr :=
  let c1 := pyStrip (stripMarkdownCodeBlocks completion)
  let cur := stripLeadingAttributes c1
  match extractTargetFunctionBody cur ep with
  | some body => body
  | none =>
    match extractBodyFromBraces cur with
    | some body => body
    | none => cleanExtraPatterns (removeMainFunctions cur)

/-! ## Sandbox backends — `human_eval/sandbox.py`

Only the control flow that decides *classification* is modelled: what a
backend returns (a `CompletedProcess`), which exceptions it raises
(`SandboxError` vs a propagating `subprocess.TimeoutExpired`), and how
the docker/firejail wrappers *catch* `TimeoutExpired` and convert it into
exit code 124 with stderr `"Command timed out"`.  The behaviour of the
underlying subprocess in one phase is an environment input
(`RawOutcome`). -/

/-- A `subprocess.CompletedProcess` (text mode). -/
structure CompletedProcess where
  returncode : Int
  stdout : PyStr
  stderr : PyStr
deriving DecidableEq, Repr

/-- What the underlying subprocess invocation of one phase does:
finish (with whatever exit code and output), exceed its wall-clock
budget (`subprocess.TimeoutExpired`), or raise some other exception. -/
inductive RawOutcome : Type
  | finished (r : CompletedProcess)
  | timedOut
  | raised (msg : PyStr)
deriving DecidableEq, Repr

/-- Outcome of one phase as seen by `_rust_unsafe_execute`: a returned
`CompletedProcess`, a raised `SandboxError`, a propagating
`subprocess.TimeoutExpired`, or another propagating exception. -/
inductive SandboxResult : Type
  | ok (r : CompletedProcess)
  | sandboxErr (msg : PyStr)
  | timeoutRaised
  | otherRaised (msg : PyStr)
deriving DecidableEq, Repr

/-- Environment/tool state of `sandbox.py` relevant to one invocation. -/
structure SandboxEnv where
  dockerAvail : Bool
  firejailAvail : Bool
  dockerSetupErr : Option PyStr
  hostRustcMissing : Bool
deriving DecidableEq, Repr

/-- An unwrapped `subprocess.run` with a timeout: `TimeoutExpired` and
other exceptions propagate. -/
def runRawDirect : RawOutcome → SandboxResult
  | .finished r => .ok r
  | .timedOut => .timeoutRaised
  | .raised m => .otherRaised m

/-- `docker_error_patterns` of `run_rustc_in_docker`. -/
def dockerErrorPatterns : List PyStr :=
  [pstr "docker: error response from daemon",
   pstr "failed to create task for container",
   pstr "failed to create shim task",
   pstr "oci runtime create failed",
   pstr "error mounting",
   pstr "read-only file system",
   pstr "cannot create directory",
   pstr "permission denied",
   pstr "no space left on device"]

/-- `run_rustc_in_docker`: image build / in-sandbox toolchain validation
failures raise `SandboxError` (collapsed into `dockerSetupErr`); a
`TimeoutExpired` of the `docker run` is caught and returned as exit code
124 with stderr `"Command timed out"`; a nonzero exit whose combined
output contains a docker infrastructure pattern (lowercased with the
Python `str.lower`) raises `SandboxError`. -/
def runRustcInDocker (U : UOps) (se : SandboxEnv) (raw : RawOutcome) :
    SandboxResult :=
  match se.dockerSetupErr with
  | some m => .sandboxErr m
  | none =>
    match raw with
    | .timedOut => .ok ⟨124, [], pstr "Command timed out"⟩
    | .raised m => .otherRaised m
    | .finished r =>
      if !(r.returncode == 0) && dockerErrorPatterns.any
          (fun p => containsB p (U.lowerF (r.stderr ++ r.stdout))) then
        .sandboxErr (pstr "Docker infrastructure error: " ++
          (r.stderr ++ r.stdout).take 500)
      else .ok r

/-- `run_rustc_with_firejail` / `run_binary_with_firejail`: a
`TimeoutExpired` is caught and returned as exit code 124 with stderr
`"Command timed out"`. -/
def runWithFirejail : RawOutcome → SandboxResult
  | .timedOut => .ok ⟨124, [], pstr "Command timed out"⟩
  | .finished r => .ok r
  | .raised m => .otherRaised m

/-- `run_binary_in_docker`: same timeout conversion, and no
infrastructure-pattern check. -/
def runBinaryInDocker : RawOutcome → SandboxResult
  | .timedOut => .ok ⟨124, [], pstr "Command timed out"⟩
  | .finished r => .ok r
  | .raised m => .otherRaised m

/-- Mode auto-detection of `run_rustc_sandboxed` / `run_binary_sandboxed`:
an explicit mode is passed through; `None` resolves to docker, else
firejail, else `"none"`. -/
def resolveMode (se : SandboxEnv) : Option PyStr → PyStr
  | some m => m
  | none =>
    if se.dockerAvail then pstr "docker"
    else if se.firejailAvail then pstr "firejail"
    else pstr "none"

/-- `run_rustc_sandboxed`: dispatch on the resolved mode.  In `"none"`
mode a missing host `rustc` raises `SandboxError`; otherwise the command
runs unwrapped, so its `TimeoutExpired` propagates (its command list
starts with `"rustc"`).  An unknown mode raises `SandboxError`. -/
def runRustcSandboxed (U : UOps) (se : SandboxEnv) (mode : Option PyStr)
    (raw : RawOutcome) : SandboxResult :=
  let m := resolveMode se mode
  if m = pstr "docker" then runRustcInDocker U se raw
  else if m = pstr "firejail" then runWithFirejail raw
  else if m = pstr "none" then
    if se.hostRustcMissing then
      .sandboxErr (pstr "rustc not found in PATH. Install Rust toolchain or use sandbox_mode='docker' or 'firejail'.")
    else runRawDirect raw
  else .sandboxErr (pstr "Unknown sandbox mode: " ++ m)

/-- `run_binary_sandboxed`: dispatch on the resolved mode; in `"none"`
mode the binary runs unwrapped (no host-toolchain probe). -/
def runBinarySandboxed (se : SandboxEnv) (mode : Option PyStr)
    (raw : RawOutcome) : SandboxResult :=
  let m := resolveMode se mode
  if m = pstr "docker" then runBinaryInDocker raw
  else if m = pstr "firejail" then runWithFirejail raw
  else if m = pstr "none" then runRawDirect raw
  else .sandboxErr (pstr "Unknown sandbox mode: " ++ m)

/-! ## Execution orchestrator — `_rust_unsafe_execute` /
`rust_check_correctness`

The per-run result dictionary, the inputs of one run, and the
environment behaviour (toolchain probe outcome, per-phase subprocess
outcomes, tool availability) are explicit.  Alongside the result record
the model returns the list of subprocess-spawning phases actually
reached, in order, which is what the "never spawns a process / never
reaches a compiler" claims quantify over. -/

/-- The enhanced result dictionary built by `_rust_unsafe_execute`
(initial values as in the source). -/
structure ResultDict where
  compile_ok : Option Bool := none
  test_ok : Option Bool := none
  clippy_ok : Option Bool := none
  compile_time_ms : Option Int := none
  binary_size_bytes : Option Nat := none
  error_type : Option PyStr := none
  stderr : PyStr := []
  passed : Bool := false
  main_free : Bool := false
  result : PyStr := []
deriving DecidableEq, Repr

/-- Outcome of the `rustc --version` preflight probe
(`_check_rustc_available`). -/
inductive RustcProbe : Type
  | okRes
  | badExit
  | notFound
  | timedOut
  | errOther (msg : PyStr)
deriving DecidableEq, Repr

/-- `_check_rustc_available`: `(available, error_message)`. -/
def checkRustcAvailable : RustcProbe → Bool × Option PyStr
  | .okRes => (true, none)
  | .badExit => (false, some (pstr "rustc --version failed"))
  | .notFound => (false, some (pstr "rustc not found in PATH"))
  | .timedOut => (false, some (pstr "rustc version check timed out"))
  | .errOther m => (false, some (pstr "rustc check error: " ++ m))

/-- Outcome of the clippy check (`_run_clippy_check` as observed by
`_run_clippy_phase`): a result pair, a `TimeoutExpired`, or another
exception. -/
inductive ClippyOutcome : Type
  | ran (ok : Bool) (stderrText : PyStr)
  | timedOut
  | raised (msg : PyStr)
deriving DecidableEq, Repr

/-- A subprocess-spawning step of one run. -/
inductive ProcEvent : Type
  | rustcProbe
  | compileProc
  | clippyProc
  | testProc
deriving DecidableEq, Repr

/-- Arguments of one `rust_check_correctness` invocation (problem fields
flattened; `entry_point` defaulted to the empty string by the caller's
`problem.get`). -/
structure RustArgs where
  taskId : PyStr := []
  prompt : PyStr := []
  testSrc : PyStr := []
  entryPoint : PyStr := []
  timeout : ℚ := 30
  sandboxMode : Option PyStr := none
  enforcePolicy : Bool := true
  compileTimeout : Option ℚ := none
  runTimeout : Option ℚ := none
  clippyTimeout : Option ℚ := none
  clippyRequired : Bool := false

/-- Environment behaviour of one child run. -/
structure RunEnv where
  rustcProbeRes : RustcProbe
  sandboxAvailable : Bool
  sandbox : SandboxEnv
  compileRaw : RawOutcome
  compileTime : ℚ
  binaryExists : Bool
  binarySize : Nat
  cargoPresent : Bool
  clippy : ClippyOutcome
  testRaw : RawOutcome

/-- `_run_clippy_phase`: updates the result dictionary and reports
whether execution continues (`true`) or returns early (`false`),
together with the processes it spawned. -/
def runClippyPhase (clippyRequired : Bool) (cargoPresent : Bool)
    (co : ClippyOutcome) (rd : ResultDict) :
    ResultDict × Bool × List ProcEvent :=
  match cargoPresent with
  | false =>
    match clippyRequired with
    | true =>
      ({ rd with
         clippy_ok := some false,
         error_type := some (pstr "infra_missing_linter"),
         stderr := pstr "cargo not found (required for clippy)",
         result := pstr "failed: cargo not available" }, false, [])
    | false => (rd, true, [])
  | true =>
    match co with
    | .ran ok st =>
      let rd1 := { rd with clippy_ok := some ok }
      match ok, clippyRequired,
          !(st == []) && containsB (pstr "infra:") st with
      | false, true, true =>
        ({ rd1 with
           error_type := some (pstr "infra_missing_linter"),
           stderr := st, result := pstr "failed: " ++ st },
         false, [.clippyProc])
      | false, true, false =>
        ({ rd1 with
           error_type := some (pstr "lint_failure"),
           stderr := st, result := pstr "failed: clippy check failed" },
         false, [.clippyProc])
      | false, false, false =>
        ({ rd1 with stderr := st }, true, [.clippyProc])
      | false, false, true => (rd1, true, [.clippyProc])
      | true, _, _ => (rd1, true, [.clippyProc])
    | .timedOut =>
      match clippyRequired with
      | true =>
        ({ rd with
           clippy_ok := some false,
           error_type := some (pstr "clippy_timeout"),
           stderr := pstr "clippy check timed out",
           result := pstr "failed: clippy timeout" }, false, [.clippyProc])
      | false =>
        ({ rd with
           clippy_ok := some false,
           stderr := pstr "clippy check timed out (advisory)" },
         true, [.clippyProc])
    | .raised m =>
      match clippyRequired with
      | true =>
        ({ rd with
           clippy_ok := some false,
           error_type := some (pstr "infra_missing_linter"),
           stderr := m, result := pstr "failed: clippy error: " ++ m },
         false, [.clippyProc])
      | false =>
        ({ rd with clippy_ok := some false, stderr := m },
         true, [.clippyProc])

/-- `compile_result.stderr.strip() or compile_result.stdout.strip()`,
then `or "compile error"`- / `or "tests failed"`-style fallback. -/
def firstNonEmpty : PyStr → PyStr → PyStr → PyStr
  | [], [], fallback => fallback
  | [], c :: b, _ => c :: b
  | c :: a, _, _ => c :: a

/-- `_rust_unsafe_execute`.  Returns the (single) result dictionary the
child appends, and the subprocess-spawning steps reached, in order.
The `subprocess.TimeoutExpired` of an unwrapped compile command is
classified by the outer handler via `"rustc" in str(e.cmd)`, which holds
for the compile command (`["rustc", …]`) and not for the test command
(the binary `…/solution_test` inside a `tmp…` directory contains no
`rustc` substring). -/
def rustUnsafeExecute (U : UOps) (a : RustArgs) (env : RunEnv)
    (completion : PyStr) : ResultDict × List ProcEvent :=
  let compileTimeoutE := a.compileTimeout.getD a.timeout
  let runTimeoutE := a.runTimeout.getD a.timeout
  let rd0 : ResultDict := { main_free := checkMainFree completion }
  let (avail, rerr) := checkRustcAvailable env.rustcProbeRes
  if avail = false then
    ({ rd0 with
       error_type := some (pstr "infra_missing_toolchain"),
       stderr := rerr.getD (pstr "rustc not available"),
       result := pstr "failed: " ++ rerr.getD (pstr "rustc not available") },
     [.rustcProbe])
  else
    match validateCompletion completion with
    | some verr =>
      ({ rd0 with
         error_type := some (pstr "compile_error"),
         stderr := verr, result := pstr "filtered: " ++ verr },
       [.rustcProbe])
    | none =>
      let cleaned := extractFunctionBody completion a.entryPoint
      match (if a.enforcePolicy then sanitizeRustCompletion U cleaned
             else none) with
      | some viol =>
        ({ rd0 with
           error_type := some (pstr "compile_error"),
           stderr := viol, result := pstr "failed: " ++ viol },
         [.rustcProbe])
      | none =>
        let useSandbox := env.sandboxAvailable &&
          !(a.sandboxMode == some (pstr "none"))
        let cres :=
          if useSandbox then
            runRustcSandboxed U env.sandbox a.sandboxMode env.compileRaw
          else runRawDirect env.compileRaw
        match cres with
        | .sandboxErr m =>
          ({ rd0 with
             error_type := some (pstr "infra_missing_toolchain"),
             stderr := m, result := pstr "failed: sandbox error: " ++ m },
           [.rustcProbe, .compileProc])
        | .timeoutRaised =>
          ({ rd0 with
             error_type := some (pstr "compile_timeout"),
             stderr := pstr "compilation timed out after " ++
               U.floatRepr compileTimeoutE ++ pstr "s",
             result := pstr "failed: compile timeout" },
           [.rustcProbe, .compileProc])
        | .otherRaised m =>
          ({ rd0 with
             error_type := some (pstr "runtime_error"),
             stderr := m, result := pstr "failed: " ++ m },
           [.rustcProbe, .compileProc])
        | .ok cr =>
          let rd1 := { rd0 with
            compile_time_ms := some ⌊env.compileTime * 1000⌋,
            compile_ok := some (cr.returncode == 0) }
          if cr.returncode == 0 then
            let rd2 :=
              if env.binaryExists then
                { rd1 with binary_size_bytes := some env.binarySize }
              else rd1
            match runClippyPhase a.clippyRequired env.cargoPresent
                env.clippy rd2 with
            | (rd3, false, cev) =>
              (rd3, [.rustcProbe, .compileProc] ++ cev)
            | (rd3, true, cev) =>
              let tres :=
                if useSandbox then
                  runBinarySandboxed env.sandbox a.sandboxMode env.testRaw
                else runRawDirect env.testRaw
              let evs := [.rustcProbe, .compileProc] ++ cev ++
                [ProcEvent.testProc]
              match tres with
              | .sandboxErr m =>
                ({ rd3 with
                   error_type := some (pstr "runtime_error"),
                   stderr := m,
                   result := pstr "failed: sandbox error: " ++ m }, evs)
              | .timeoutRaised =>
                ({ rd3 with
                   error_type := some (pstr "test_timeout"),
                   stderr := pstr "test execution timed out after " ++
                     U.floatRepr runTimeoutE ++ pstr "s",
                   result := pstr "failed: test timeout" }, evs)
              | .otherRaised m =>
                ({ rd3 with
                   error_type := some (pstr "runtime_error"),
                   stderr := m, result := pstr "failed: " ++ m }, evs)
              | .ok tr =>
                let rd4 := { rd3 with test_ok := some (tr.returncode == 0) }
                if tr.returncode == 0 then
                  ({ rd4 with passed := true, result := pstr "passed" }, evs)
                else
                  let failure :=
                    firstNonEmpty (pyStrip tr.stderr) (pyStrip tr.stdout)
                      (pstr "tests failed")
                  ({ rd4 with
                     error_type := some (pstr "assertion_failure"),
                     stderr := failure,
                     result := pstr "failed: " ++ failure }, evs)
          else
            let failure :=
              firstNonEmpty (pyStrip cr.stderr) (pyStrip cr.stdout)
                (pstr "compile error")
            ({ rd1 with
               error_type := some (pstr "compile_error"),
               stderr := failure, result := pstr "failed: " ++ failure },
             [.rustcProbe, .compileProc])

/-- The parent-side watchdog budget of `rust_check_correctness`:
the effective compile, run and clippy budgets (with their defaulting)
plus the fixed 2-second grace period. -/
def watchdogTimeout (a : RustArgs) : ℚ :=
  (a.compileTimeout.getD a.timeout) + (a.runTimeout.getD a.timeout) +
    (a.clippyTimeout.getD (a.compileTimeout.getD a.timeout)) + 2

/-- The fallback dictionary the parent appends when the joined child left
no result (`if not result:`). -/
def watchdogDict (completion : PyStr) : ResultDict :=
  { compile_ok := none, test_ok := none,
    error_type := some (pstr "runtime_error"),
    stderr := pstr "process watchdog timeout",
    passed := false, main_free := checkMainFree completion,
    result := pstr "timed out: process watchdog" }

/-- The record `rust_check_correctness` returns. -/
structure FinalRecord where
  task_id : PyStr
  completion : PyStr
  completion_id : Option Int
  compile_ok : Option Bool
  test_ok : Option Bool
  clippy_ok : Option Bool
  compile_time_ms : Option Int
  binary_size_bytes : Option Nat
  error_type : Option PyStr
  stderr : PyStr
  passed : Bool
  main_free : Bool
  result : PyStr
deriving DecidableEq, Repr

/-- The final `dict(...)` merge of `rust_check_correctness` (the child
always appends a full dictionary, so every `.get` finds its key; the
legacy non-dict branch is unreachable). -/
def mergeRecord (a : RustArgs) (completion : PyStr)
    (completionId : Option Int) (rd : ResultDict) : FinalRecord :=
  { task_id := a.taskId, completion := completion,
    completion_id := completionId,
    compile_ok := rd.compile_ok, test_ok := rd.test_ok,
    clippy_ok := rd.clippy_ok, compile_time_ms := rd.compile_time_ms,
    binary_size_bytes := rd.binary_size_bytes,
    error_type := rd.error_type, stderr := rd.stderr,
    passed := rd.passed, main_free := rd.main_free, result := rd.result }

/-- `rust_check_correctness`, parameterised by what the watchdog join
observed: `childDict` is the result the child deposited within the
budget (`none` when the shared list is still empty at expiry), and
`childAlive` is `process.is_alive()` after the join.  Returns the final
record, the join timeout used, and whether `process.kill()` ran. -/
def rustCheckCorrectness (a : RustArgs) (completion : PyStr)
    (completionId : Option Int) (childDict : Option ResultDict)
    (childAlive : Bool) : FinalRecord × ℚ × Bool :=
  let rd := childDict.getD (watchdogDict completion)
  (mergeRecord a completion completionId rd, watchdogTimeout a, childAlive)

/-! ## Supplementary definitions used by the verified claims -/

/-- `_validate_completion` rebuilt over an explicit exception monad: the
single primitive in the validator that can raise for some CPython `str`
input is `completion.encode("utf-8")` (a `UnicodeEncodeError` exactly on
lone surrogates), and the source wraps it in
`try/except UnicodeEncodeError`. -/
def validateCompletionE (s : PyStr) : Except PyStr (Option PyStr) :=
  if s = [] then .ok (some (pstr "empty completion"))
  else if maxCompletionLength < s.length then
    .ok (some (pstr "completion too long (" ++ natStr s.length ++
      pstr " > " ++ natStr maxCompletionLength ++ pstr ")"))
  else if maxCompletionLines < s.count 10 then
    .ok (some (pstr "too many lines (> " ++ natStr maxCompletionLines ++
      pstr ")"))
  else if 0 ∈ s then .ok (some (pstr "null byte in completion"))
  else
    Except.tryCatch
      (do
        let _ ← (if s.any (fun c => 55296 ≤ c ∧ c ≤ 57343) then
          Except.error (pstr "UnicodeEncodeError") else Except.ok ())
        Except.ok none)
      (fun _ => Except.ok (some (pstr "invalid UTF-8 encoding")))

/-- The four pure text functions of the pipeline, run together under the
exception monad: no other primitive in `_sanitize_rust_completion`,
`_extract_function_body` or `check_main_free` can raise (they are string
scans and `re` operations over fixed valid patterns). -/
def textFunctionsE (U : UOps) (s ep : PyStr) :
    Except PyStr (Option PyStr × Option PyStr × PyStr × Bool) := do
  let v ← validateCompletionE s
  Except.ok (v, sanitizeRustCompletion U s, extractFunctionBody s ep,
    checkMainFree s)

/-- The character set `[a-z0-9_ ]` of the no-false-positive claim. -/
def inCharset (c : Nat) : Bool :=
  c = 32 ∨ c = 95 ∨ (48 ≤ c ∧ c ≤ 57) ∨ (97 ≤ c ∧ c ≤ 122)

/-- All characters of the string drawn from `[a-z0-9_ ]`. -/
def charsetOnly (s : PyStr) : Bool := s.all inCharset

/-- The deny-list entries whose lowered text itself lies in
`[a-z0-9_ ]*`: every deny-list pattern either contains one of these as a
substring or contains a character outside the set. -/
def denyCharsetRoots : List PyStr :=
  [pstr "unsafe", pstr "extern", pstr "libc", pstr "winapi",
   pstr "reqwest", pstr "ureq", pstr "hyper", pstr "proc_macro"]

/-- One deny-list pattern is harmless on `[a-z0-9_ ]*` strings that avoid
the roots: its lowering either leaves the character set or contains a
root. -/
def patOK (p : PyStr) : Bool :=
  (asciiLowerS p).any (fun c => ¬ inCharset c) ||
  denyCharsetRoots.any (fun e => containsB e (asciiLowerS p))

/-- The library primitives instantiated for concrete all-ASCII inputs on
which `str.lower` (already-lowercase input) and NFKD-plus-ASCII-coercion
act as the identity; the float rendering is never inspected. -/
def asciiUOps : UOps := ⟨id, id, fun _ => []⟩

/-- A benign environment: toolchain present, docker sandboxing working,
compilation and tests succeed, `cargo` absent (clippy skipped). -/
def envOk : RunEnv :=
  { rustcProbeRes := .okRes
    sandboxAvailable := true
    sandbox := ⟨true, false, none, false⟩
    compileRaw := .finished ⟨0, [], []⟩
    compileTime := 1
    binaryExists := true
    binarySize := 4096
    cargoPresent := false
    clippy := .ran true []
    testRaw := .finished ⟨0, [], []⟩ }

/-- Arguments of a concrete run against an `add`-style problem under the
docker sandbox mode. -/
def argsAdd : RustArgs :=
  { taskId := pstr "Rust/0", entryPoint := pstr "add",
    sandboxMode := some (pstr "docker") }

/-- A completion whose cleaned body trips the policy engine
(`std::process`), already lowercase ASCII. -/
def policyBody : PyStr := pstr "    std::process::id();\n\x7d"

/-- A clean completion body. -/
def addBody : PyStr := pstr "    a + b\n\x7d"

/-! # Theorems

Helper lemmas come first, then one theorem per verified claim (with a
closed witness where the claim's theorem carries hypotheses). -/

/-- One admission-controller step keeps the count in `[0, maxWorkers]`. -/
theorem rmStep_mem (maxW : Int) (a : Int) (e : RMEvent) (h0 : 0 ≤ a)
    (h1 : a ≤ maxW) : 0 ≤ rmStep maxW a e ∧ rmStep maxW a e ≤ maxW := by
  cases e with
  | acquire mem =>
    simp only [rmStep, acquireWorker]
    split_ifs <;> simp <;> omega
  | release =>
    simp only [rmStep, releaseWorker]
    constructor <;> omega

/-- From any count in `[0, maxWorkers]`, every event sequence stays in
`[0, maxWorkers]`. -/
theorem rmRun_mem (maxW : Int) (evs : List RMEvent) :
    ∀ a : Int, 0 ≤ a → a ≤ maxW →
      0 ≤ rmRun maxW a evs ∧ rmRun maxW a evs ≤ maxW := by
  induction evs with
  | nil => intro a h0 h1; exact ⟨h0, h1⟩
  | cons e evs ih =>
    intro a h0 h1
    have hstep := rmStep_mem maxW a e h0 h1
    have : rmRun maxW a (e :: evs) = rmRun maxW (rmStep maxW a e) evs := by
      simp [rmRun]
    rw [this]
    exact ih _ hstep.1 hstep.2

/-- C10: for every finite sequence of `acquire_worker`/`release_worker`
calls on a `ResourceMonitor` (including releases with no prior successful
acquire), the `_active_workers` count stays within `[0, max_workers]`;
`acquire_worker` increments the count exactly when memory is not over the
limit and the count is below `max_workers` (returning `False` otherwise
and leaving the count unchanged), and `release_worker` never drives the
count below zero. -/
theorem resourceMonitor_bounds (maxW : Int) (hw : 0 ≤ maxW)
    (evs : List RMEvent) :
    (0 ≤ rmRun maxW 0 evs ∧ rmRun maxW 0 evs ≤ maxW) ∧
    (∀ (a : Int) (mem : Bool),
      ((acquireWorker maxW a mem).2 = true ↔ mem = false ∧ a < maxW) ∧
      ((acquireWorker maxW a mem).2 = true →
        (acquireWorker maxW a mem).1 = a + 1) ∧
      ((acquireWorker maxW a mem).2 = false →
        (acquireWorker maxW a mem).1 = a)) ∧
    (∀ a : Int, 0 ≤ releaseWorker a) := by
  refine ⟨rmRun_mem maxW evs 0 le_rfl hw, ?_, ?_⟩
  · intro a mem
    unfold acquireWorker
    split_ifs <;> simp_all <;> omega
  · intro a
    simp [releaseWorker]

/-- Closed witness for `resourceMonitor_bounds` at `max_workers = 2` and
a concrete call sequence. -/
theorem resourceMonitor_bounds_witness :
    (0 ≤ rmRun 2 0 [.acquire false, .acquire false, .acquire false,
        .release, .release, .release] ∧
      rmRun 2 0 [.acquire false, .acquire false, .acquire false,
        .release, .release, .release] ≤ 2) ∧
    (∀ (a : Int) (mem : Bool),
      ((acquireWorker 2 a mem).2 = true ↔ mem = false ∧ a < 2) ∧
      ((acquireWorker 2 a mem).2 = true →
        (acquireWorker 2 a mem).1 = a + 1) ∧
      ((acquireWorker 2 a mem).2 = false →
        (acquireWorker 2 a mem).1 = a)) ∧
    (∀ a : Int, 0 ≤ releaseWorker a) :=
  resourceMonitor_bounds 2 (by decide)
    [.acquire false, .acquire false, .acquire false,
     .release, .release, .release]

/-- C6: the parent-side watchdog joins the child with a budget equal to
the sum of the effective compile, run and clippy budgets (each phase
budget defaulting to the global timeout, clippy defaulting to the
effective compile budget) plus the fixed 2-second grace period; when the
child deposited no result within that budget the returned record is the
distinct process-watchdog `runtime_error` with `passed = false`, and a
still-alive child is killed. -/
theorem watchdog_budget_and_record (a : RustArgs) (completion : PyStr)
    (cid : Option Int) (alive : Bool) :
    watchdogTimeout a =
      (a.compileTimeout.getD a.timeout) + (a.runTimeout.getD a.timeout) +
        (a.clippyTimeout.getD (a.compileTimeout.getD a.timeout)) + 2 ∧
    (rustCheckCorrectness a completion cid none alive).2.1 =
      watchdogTimeout a ∧
    (rustCheckCorrectness a completion cid none alive).1.error_type =
      some (pstr "runtime_error") ∧
    (rustCheckCorrectness a completion cid none alive).1.stderr =
      pstr "process watchdog timeout" ∧
    (rustCheckCorrectness a completion cid none alive).1.result =
      pstr "timed out: process watchdog" ∧
    (rustCheckCorrectness a completion cid none alive).1.passed = false ∧
    (alive = true → (rustCheckCorrectness a completion cid none alive).2.2
      = true) :=
  ⟨rfl, rfl, rfl, rfl, rfl, rfl, fun h => h⟩

/-- Closed witness for `watchdog_budget_and_record` on concrete budgets
(compile 10, run 10, clippy defaulted to 10, so the join budget is 32). -/
theorem watchdog_budget_and_record_witness :
    watchdogTimeout { argsAdd with timeout := 10 } = 32 ∧
    (rustCheckCorrectness { argsAdd with timeout := 10 } addBody none none
      true).1.passed = false ∧
    (rustCheckCorrectness { argsAdd with timeout := 10 } addBody none none
      true).2.2 = true := by
  have h := watchdog_budget_and_record { argsAdd with timeout := 10 }
    addBody none true
  refine ⟨?_, h.2.2.2.2.2.1, h.2.2.2.2.2.2 rfl⟩
  rw [h.1]
  norm_num [argsAdd]

/-- Keys of the homoglyph table are all non-ASCII. -/
theorem homoglyphPairs_keys_ge : ∀ p ∈ homoglyphPairs, 128 ≤ p.1 := by
  decide

/-- `List.lookup` misses when every key is at least 128 and the query is
below 128. -/
theorem lookup_none_of_keys_ge (l : List (Nat × Nat)) (c : Nat)
    (hk : ∀ p ∈ l, 128 ≤ p.1) (hc : c < 128) : l.lookup c = none := by
  induction l with
  | nil => rfl
  | cons p l ih =>
    have h1 : 128 ≤ p.1 := hk p (List.mem_cons_self p l)
    have hne : (c == p.1) = false := by
      simp only [beq_eq_false_iff_ne, ne_eq]
      omega
    simp only [List.lookup, hne]
    exact ih (fun q hq => hk q (List.mem_cons_of_mem p hq))

/-- A map that fixes every member of a list is the identity on it. -/
theorem map_fix_of_mem {f : Nat → Nat} :
    ∀ l : List Nat, (∀ c ∈ l, f c = c) → l.map f = l := by
  intro l h
  induction l with
  | nil => rfl
  | cons c l ih =>
    simp only [List.map_cons, h c (List.mem_cons_self c l)]
    rw [ih (fun d hd => h d (List.mem_cons_of_mem c hd))]

/-- The homoglyph map fixes ASCII code points. -/
theorem homoglyph_ascii (c : Nat) (hc : c < 128) : homoglyph c = c := by
  unfold homoglyph
  rw [lookup_none_of_keys_ge homoglyphPairs c homoglyphPairs_keys_ge hc]
  rfl

/-- C9: `_normalize_unicode` is idempotent, for any NFKD that fixes
all-ASCII strings (a Unicode-standard guarantee): its output is pure
ASCII, on which the homoglyph map, NFKD and the ASCII filter are all the
identity. -/
theorem normalizeUnicode_idempotent (nfkdF : PyStr → PyStr)
    (hnf : ∀ t : PyStr, (∀ c ∈ t, c < 128) → nfkdF t = t) (x : PyStr) :
    normalizeUnicode nfkdF (normalizeUnicode nfkdF x) =
      normalizeUnicode nfkdF x := by
  have hmem : ∀ c ∈ normalizeUnicode nfkdF x, c < 128 := by
    intro c hc
    have := List.of_mem_filter hc
    simpa using this
  have hmap : (normalizeUnicode nfkdF x).map homoglyph =
      normalizeUnicode nfkdF x :=
    map_fix_of_mem (normalizeUnicode nfkdF x)
      (fun c hc => homoglyph_ascii c (hmem c hc))
  have hfix : nfkdF (normalizeUnicode nfkdF x) = normalizeUnicode nfkdF x :=
    hnf _ hmem
  have hfil : (normalizeUnicode nfkdF x).filter (fun c => c < 128) =
      normalizeUnicode nfkdF x :=
    List.filter_eq_self.2 (fun c hc => by simpa using hmem c hc)
  calc normalizeUnicode nfkdF (normalizeUnicode nfkdF x)
      = (nfkdF ((normalizeUnicode nfkdF x).map homoglyph)).filter
          (fun c => c < 128) := rfl
    _ = normalizeUnicode nfkdF x := by rw [hmap, hfix, hfil]

/-- Closed witness for `normalizeUnicode_idempotent` with NFKD
instantiated by the identity on an input already using only mapped
homoglyphs and ASCII. -/
theorem normalizeUnicode_idempotent_witness :
    normalizeUnicode id (normalizeUnicode id (pstr "ᴀ unsafe")) =
      normalizeUnicode id (pstr "ᴀ unsafe") :=
  normalizeUnicode_idempotent id (fun _ _ => rfl) (pstr "ᴀ unsafe")

/-- The factors of `passProd` lie in `[0, 1]` once `k + count ≤ n` with
`1 ≤ k`, hence so does the product. -/
theorem passProd_bounds (n k : ℕ) (hk : 1 ≤ k) :
    ∀ c : ℕ, k + c ≤ n → 0 ≤ passProd n k c ∧ passProd n k c ≤ 1 := by
  intro c
  induction c with
  | zero => intro _; exact ⟨zero_le_one, le_refl 1⟩
  | succ c ih =>
    intro h
    obtain ⟨ih0, ih1⟩ := ih (by omega)
    have h1 : 1 ≤ n - c := by omega
    have hpos : (0 : ℚ) < ((n - c : ℕ) : ℚ) := by exact_mod_cast h1
    have hle : (k : ℚ) ≤ ((n - c : ℕ) : ℚ) := by
      have hx : k ≤ n - c := by omega
      exact_mod_cast hx
    have hdiv0 : 0 ≤ (k : ℚ) / ((n - c : ℕ) : ℚ) :=
      div_nonneg (by positivity) hpos.le
    have hdiv1 : (k : ℚ) / ((n - c : ℕ) : ℚ) ≤ 1 := (div_le_one hpos).2 hle
    refine ⟨mul_nonneg (by linarith) ih0, ?_⟩
    calc (1 - (k : ℚ) / ((n - c : ℕ) : ℚ)) * passProd n k c
        ≤ 1 * 1 := mul_le_mul (by linarith) ih1 ih0 (by norm_num)
      _ = 1 := by ring

/-- Raising `k` by one lowers the product (pointwise smaller nonnegative
factors). -/
theorem passProd_anti_k (n k : ℕ) (hk : 1 ≤ k) :
    ∀ c : ℕ, (k + 1) + c ≤ n → passProd n (k + 1) c ≤ passProd n k c := by
  intro c
  induction c with
  | zero => intro _; exact le_refl 1
  | succ c ih =>
    intro h
    have ihc := ih (by omega)
    have hb := passProd_bounds n (k + 1) (by omega) c (by omega)
    have hb2 := passProd_bounds n k hk c (by omega)
    have hpos : (0 : ℚ) < ((n - c : ℕ) : ℚ) := by
      have h1 : 1 ≤ n - c := by omega
      exact_mod_cast h1
    have hle1 : (((k + 1 : ℕ)) : ℚ) ≤ ((n - c : ℕ) : ℚ) := by
      have hx : k + 1 ≤ n - c := by omega
      exact_mod_cast hx
    have hdiv1 : (((k + 1 : ℕ)) : ℚ) / ((n - c : ℕ) : ℚ) ≤ 1 :=
      (div_le_one hpos).2 hle1
    have hmono : (k : ℚ) / ((n - c : ℕ) : ℚ) ≤
        (((k + 1 : ℕ)) : ℚ) / ((n - c : ℕ) : ℚ) := by
      apply (div_le_div_right hpos).2
      push_cast
      linarith
    show (1 - (((k + 1 : ℕ)) : ℚ) / ((n - c : ℕ) : ℚ)) * passProd n (k + 1) c
        ≤ (1 - (k : ℚ) / ((n - c : ℕ) : ℚ)) * passProd n k c
    apply mul_le_mul (by linarith) ihc hb.1 (by linarith)

/-- One step of monotonicity of the estimator in `k`. -/
theorem estimator_le_succ_k (n c k : ℕ) (hc : c ≤ n) (hk : 1 ≤ k) :
    estimator n c k ≤ estimator n c (k + 1) := by
  by_cases h1 : n - c < k
  · have h2 : n - c < k + 1 := by omega
    simp [estimator, h1, h2]
  · by_cases h2 : n - c < k + 1
    · have hb := passProd_bounds n k hk c (by omega)
      simp only [estimator, if_neg h1, if_pos h2]
      linarith [hb.1]
    · have hmono := passProd_anti_k n k hk c (by omega)
      simp only [estimator, if_neg h1, if_neg h2]
      linarith

/-- One step of monotonicity of the estimator in `c`. -/
theorem estimator_le_succ_c (n c k : ℕ) (hc : c + 1 ≤ n) (hk : 1 ≤ k) :
    estimator n c k ≤ estimator n (c + 1) k := by
  by_cases h1 : n - c < k
  · have h2 : n - (c + 1) < k := by omega
    simp [estimator, h1, h2]
  · have hb := passProd_bounds n k hk c (by omega)
    by_cases h2 : n - (c + 1) < k
    · simp only [estimator, if_neg h1, if_pos h2]
      linarith [hb.1]
    · have hpos : (0 : ℚ) < ((n - c : ℕ) : ℚ) := by
        have hx : 1 ≤ n - c := by omega
        exact_mod_cast hx
      have hdiv0 : 0 ≤ (k : ℚ) / ((n - c : ℕ) : ℚ) :=
        div_nonneg (by positivity) hpos.le
      simp only [estimator, if_neg h1, if_neg h2]
      have hstep : (1 - (k : ℚ) / ((n - c : ℕ) : ℚ)) * passProd n k c ≤
          passProd n k c := by
        nlinarith [hb.1, hb.2]
      have hunfold : passProd n k (c + 1) =
          (1 - (k : ℚ) / ((n - c : ℕ) : ℚ)) * passProd n k c := rfl
      linarith [hunfold ▸ hstep]

/-- C7: for all valid `(n, c, k)` with `c ≤ n` and `1 ≤ k ≤ n`, the
pass@k estimator of `estimate_pass_at_k` (modelled exactly over `ℚ`)
returns a value in `[0, 1]`, returns `1` when `c = n`, returns `0` when
`c = 0`, and is monotonically non-decreasing in both `k` and `c`. -/
theorem estimator_props (n c k : ℕ) (hc : c ≤ n) (hk : 1 ≤ k)
    (hkn : k ≤ n) :
    (0 ≤ estimator n c k ∧ estimator n c k ≤ 1) ∧
    (c = n → estimator n c k = 1) ∧
    (c = 0 → estimator n c k = 0) ∧
    (∀ k', k ≤ k' → k' ≤ n → estimator n c k ≤ estimator n c k') ∧
    (∀ c', c ≤ c' → c' ≤ n → estimator n c k ≤ estimator n c' k) := by
  refine ⟨?_, ?_, ?_, ?_, ?_⟩
  · by_cases h1 : n - c < k
    · simp [estimator, h1]
    · have hb := passProd_bounds n k hk c (by omega)
      simp only [estimator, if_neg h1]
      constructor <;> linarith [hb.1, hb.2]
  · intro h
    rw [h]
    have h1 : n - n < k := by omega
    simp only [estimator, if_pos h1]
  · intro h
    rw [h]
    have h1 : ¬ n - 0 < k := by omega
    simp only [estimator, if_neg h1, passProd]
    ring
  · intro k' hkk' hk'n
    induction k', hkk' using Nat.le_induction with
    | base => exact le_refl _
    | succ m hm ih =>
      calc estimator n c k ≤ estimator n c m := ih (by omega)
        _ ≤ estimator n c (m + 1) := estimator_le_succ_k n c m hc (by omega)
  · intro c' hcc' hc'n
    induction c', hcc' using Nat.le_induction with
    | base => exact le_refl _
    | succ m hm ih =>
      calc estimator n c k ≤ estimator n m k := ih (by omega)
        _ ≤ estimator n (m + 1) k := estimator_le_succ_c n m k (by omega) hk

/-- Closed witness for `estimator_props` at `(n, c, k) = (5, 2, 2)`. -/
theorem estimator_props_witness :
    (0 ≤ estimator 5 2 2 ∧ estimator 5 2 2 ≤ 1) ∧
    (2 = 5 → estimator 5 2 2 = 1) ∧
    (2 = 0 → estimator 5 2 2 = 0) ∧
    (∀ k', 2 ≤ k' → k' ≤ 5 → estimator 5 2 2 ≤ estimator 5 2 k') ∧
    (∀ c', 2 ≤ c' → c' ≤ 5 → estimator 5 2 2 ≤ estimator 5 c' 2) :=
  estimator_props 5 2 2 (by norm_num) (by norm_num) (by norm_num)

/-- C8: the Except-monad reconstruction of the validator never escapes
with an exception and agrees with the pure validator: its single fallible
primitive (the UTF-8 encode) is guarded by the source's `try/except`. -/
theorem validateCompletionE_ok (s : PyStr) :
    validateCompletionE s = Except.ok (validateCompletion s) := by
  unfold validateCompletionE validateCompletion encodeUtf8
  split_ifs <;> rfl

/-- C8: for every input string (empty, huge, with embedded NUL, lone
surrogates, homoglyph text — any `PyStr`), the four pure text functions,
run together under an explicit exception monad, return normally with
values of their declared types: the validator's guarded encode is the
only fallible primitive among them. -/
theorem textFunctions_total (U : UOps) (s ep : PyStr) :
    textFunctionsE U s ep = Except.ok (validateCompletion s,
      sanitizeRustCompletion U s, extractFunctionBody s ep,
      checkMainFree s) := by
  unfold textFunctionsE
  rw [validateCompletionE_ok]
  rfl

/-- `startsWithB` decides `List.IsPrefix`. -/
theorem startsWithB_iff (p : PyStr) : ∀ s : PyStr,
    startsWithB p s = true ↔ p <+: s := by
  induction p with
  | nil =>
    intro s
    show true = true ↔ [] <+: s
    simp [List.nil_prefix]
  | cons a p ih =>
    intro s
    cases s with
    | nil =>
      show false = true ↔ a :: p <+: []
      simp
    | cons b s =>
      show (a == b && startsWithB p s) = true ↔ a :: p <+: b :: s
      rw [Bool.and_eq_true, beq_iff_eq, ih s, List.cons_prefix_cons]

/-- `containsB` decides `List.IsInfix` (Python's `in`). -/
theorem containsB_iff (p : PyStr) : ∀ s : PyStr,
    containsB p s = true ↔ p <:+: s := by
  intro s
  induction s with
  | nil =>
    show startsWithB p [] = true ↔ p <:+: []
    rw [startsWithB_iff, List.prefix_nil, List.infix_nil]
  | cons c rest ih =>
    show (startsWithB p (c :: rest) || containsB p rest) = true ↔
      p <:+: c :: rest
    rw [Bool.or_eq_true, startsWithB_iff, ih, List.infix_cons_iff]

/-- Every deny-list pattern is covered by `patOK`. -/
theorem disallowedPatterns_patOK :
    disallowedPatterns.all patOK = true := by decide

/-- Pass 1 is the identity on slash-free text. -/
theorem stripLineComments_id : ∀ s : PyStr, (∀ c ∈ s, c ≠ 47) →
    stripLineCommentsAux false s = s := by
  intro s
  induction s with
  | nil => intro _; rfl
  | cons c rest ih =>
    intro h
    have hc : c ≠ 47 := h c (List.mem_cons_self c rest)
    have hr : ∀ x ∈ rest, x ≠ 47 :=
      fun x hx => h x (List.mem_cons_of_mem c hx)
    cases rest with
    | nil => rfl
    | cons d rest2 =>
      have : ¬ (c = 47 ∧ d = 47) := fun hcd => hc hcd.1
      simp only [stripLineCommentsAux, if_neg this]
      rw [ih hr]

/-- Pass 2 is the identity on slash-free text. -/
theorem stripBlockComments_id : ∀ s : PyStr, (∀ c ∈ s, c ≠ 47) →
    stripBlockCommentsAux false s = s := by
  intro s
  induction s with
  | nil => intro _; rfl
  | cons c rest ih =>
    intro h
    have hc : c ≠ 47 := h c (List.mem_cons_self c rest)
    have hr : ∀ x ∈ rest, x ≠ 47 :=
      fun x hx => h x (List.mem_cons_of_mem c hx)
    cases rest with
    | nil => rfl
    | cons d rest2 =>
      have : ¬ (c = 47 ∧ d = 42 ∧ hasStarSlash rest2 = true) :=
        fun hcd => hc hcd.1
      simp only [stripBlockCommentsAux, if_neg this]
      rw [ih hr]

/-- The raw-string opener needs a quote, so quote-free text defeats it. -/
theorem tryRawAfterR_none (s : PyStr) (h : ∀ c ∈ s, c ≠ 34) :
    tryRawAfterR s = none := by
  unfold tryRawAfterR
  split
  · next heq =>
    exfalso
    have h34 : (34 : Nat) ∈ s :=
      List.drop_subset _ s (List.mem_of_mem_head? heq)
    exact h 34 h34 rfl
  · rfl

/-- Pass 3 is the identity on quote-free text. -/
theorem stripRawStrings_id : ∀ s : PyStr, (∀ c ∈ s, c ≠ 34) →
    stripRawStringsAux 0 s = s := by
  intro s
  induction s with
  | nil => intro _; rfl
  | cons c rest ih =>
    intro h
    have hr : ∀ x ∈ rest, x ≠ 34 :=
      fun x hx => h x (List.mem_cons_of_mem c hx)
    by_cases hc : c = 114
    · simp only [stripRawStringsAux, if_pos hc, tryRawAfterR_none rest hr]
      rw [ih hr]
    · simp only [stripRawStringsAux, if_neg hc]
      rw [ih hr]

/-- Pass 4 is the identity on quote-free text. -/
theorem stripStrings_id : ∀ s : PyStr, (∀ c ∈ s, c ≠ 34) →
    stripStringsAux 0 s = s := by
  intro s
  induction s with
  | nil => intro _; rfl
  | cons c rest ih =>
    intro h
    have hc : ¬ c = 34 := h c (List.mem_cons_self c rest)
    have hr : ∀ x ∈ rest, x ≠ 34 :=
      fun x hx => h x (List.mem_cons_of_mem c hx)
    simp only [stripStringsAux, if_neg hc]
    rw [ih hr]

/-- Pass 5 is the identity on apostrophe-free text. -/
theorem stripChars_id : ∀ s : PyStr, (∀ c ∈ s, c ≠ 39) →
    stripCharsAux 0 s = s := by
  intro s
  induction s with
  | nil => intro _; rfl
  | cons c rest ih =>
    intro h
    have hc : ¬ c = 39 := h c (List.mem_cons_self c rest)
    have hr : ∀ x ∈ rest, x ≠ 39 :=
      fun x hx => h x (List.mem_cons_of_mem c hx)
    simp only [stripCharsAux, if_neg hc]
    rw [ih hr]

/-- The derive scanner finds nothing in hash-free text. -/
theorem deriveGroups_nil : ∀ s : PyStr, (∀ c ∈ s, c ≠ 35) →
    deriveGroupsAux 0 s = [] := by
  intro s
  induction s with
  | nil => intro _; rfl
  | cons c rest ih =>
    intro h
    have hc : c ≠ 35 := h c (List.mem_cons_self c rest)
    have hr : ∀ x ∈ rest, x ≠ 35 :=
      fun x hx => h x (List.mem_cons_of_mem c hx)
    have hsw : startsWithB (pstr "#[derive") (c :: rest) = false := by
      have he : pstr "#[derive" = 35 :: pstr "[derive" := rfl
      rw [he]
      simp [startsWithB, Ne.symm hc]
    simp only [deriveGroupsAux, hsw, Bool.false_eq_true, if_false]
    exact ih hr

/-- The raw-string search fails on quote-free text. -/
theorem rawStrSearch_false : ∀ s : PyStr, (∀ c ∈ s, c ≠ 34) →
    rawStrSearch s = false := by
  intro s
  induction s with
  | nil => intro _; rfl
  | cons c rest ih =>
    intro h
    have hr : ∀ x ∈ rest, x ≠ 34 :=
      fun x hx => h x (List.mem_cons_of_mem c hx)
    have hinner : rawOpenHere rest = false := by
      unfold rawOpenHere
      split
      · next heq =>
        exfalso
        have h34 : (34 : Nat) ∈ rest :=
          List.drop_subset _ rest (List.mem_of_mem_head? heq)
        exact hr 34 h34 rfl
      · rfl
    simp only [rawStrSearch, hinner, Bool.and_false, Bool.false_or]
    exact ih hr

/-- C5 (amended): a string drawn from `[a-z0-9_ ]*` that does not contain
any of the deny-list roots that themselves lie inside that character set
(`unsafe`, `extern`, `libc`, `winapi`, `reqwest`, `ureq`, `hyper`,
`proc_macro`) never triggers a policy violation.  The hypotheses on the
library primitives hold for the real `str.lower` and NFKD on such input
(both fix lowercase-ASCII text). -/
theorem sanitize_clean_on_charset (U : UOps) (s : PyStr)
    (hcs : charsetOnly s = true)
    (hlow : U.lowerF s = s) (hnf : U.nfkdF s = s)
    (hroots : ∀ e ∈ denyCharsetRoots, containsB e s = false) :
    sanitizeRustCompletion U s = none := by
  have hval : ∀ c ∈ s, c = 32 ∨ c = 95 ∨ (48 ≤ c ∧ c ≤ 57) ∨
      (97 ≤ c ∧ c ≤ 122) := by
    intro c hc
    have h1 := List.all_eq_true.1 hcs c hc
    simpa [inCharset, decide_eq_true_eq] using h1
  have hmem : ∀ c ∈ s, inCharset c = true := fun c hc =>
    List.all_eq_true.1 hcs c hc
  have h47 : ∀ c ∈ s, c ≠ 47 := by
    intro c hc; rcases hval c hc with h | h | h | h <;> omega
  have h34 : ∀ c ∈ s, c ≠ 34 := by
    intro c hc; rcases hval c hc with h | h | h | h <;> omega
  have h39 : ∀ c ∈ s, c ≠ 39 := by
    intro c hc; rcases hval c hc with h | h | h | h <;> omega
  have h35 : ∀ c ∈ s, c ≠ 35 := by
    intro c hc; rcases hval c hc with h | h | h | h <;> omega
  have h128 : ∀ c ∈ s, c < 128 := by
    intro c hc; rcases hval c hc with h | h | h | h <;> omega
  have hnorm : normalizeUnicode U.nfkdF (U.lowerF s) = s := by
    rw [hlow]
    unfold normalizeUnicode
    rw [map_fix_of_mem s (fun c hc => homoglyph_ascii c (h128 c hc)), hnf]
    exact List.filter_eq_self.2 (fun c hc => by simpa using h128 c hc)
  have hstrip : stripCommentsAndStrings s = s := by
    unfold stripCommentsAndStrings stripLineComments stripBlockComments
      stripRawStrings stripStrings stripChars
    rw [stripLineComments_id s h47, stripBlockComments_id s h47,
      stripRawStrings_id s h34, stripStrings_id s h34, stripChars_id s h39]
  have hfind : findDisallowed s = none := by
    unfold findDisallowed
    apply List.find?_eq_none.mpr
    intro p hp hcont
    have hpo := List.all_eq_true.1 disallowedPatterns_patOK p hp
    rw [patOK, Bool.or_eq_true] at hpo
    rcases hpo with hA | hB
    · rw [List.any_eq_true] at hA
      obtain ⟨c0, hc0mem, hc0⟩ := hA
      have hin : asciiLowerS p <:+: s := (containsB_iff _ _).1 hcont
      have hc0s : c0 ∈ s := hin.sublist.subset hc0mem
      have := hmem c0 hc0s
      simp only [decide_eq_true_eq] at hc0
      exact hc0 this
    · rw [List.any_eq_true] at hB
      obtain ⟨e, hemem, he⟩ := hB
      have h1 : e <:+: asciiLowerS p := (containsB_iff _ _).1 he
      have h2 : asciiLowerS p <:+: s := (containsB_iff _ _).1 hcont
      have h3 : containsB e s = true := (containsB_iff _ _).2 (h1.trans h2)
      rw [hroots e hemem] at h3
      exact Bool.false_ne_true h3
  have hderive : deriveViolation s = none := by
    unfold deriveViolation deriveGroups
    rw [deriveGroups_nil s h35]
    rfl
  have hraw := rawStrSearch_false s h34
  unfold sanitizeRustCompletion
  simp only [hnorm, hstrip, hfind, hderive, hraw, Bool.false_eq_true,
    if_false]

/-- C5 counterexample: `"unsafe"` is drawn from `[a-z0-9_ ]*`, yet the
policy engine flags it — the deny list itself contains entries made only
of characters from that set. -/
theorem sanitize_charset_counterexample :
    charsetOnly (pstr "unsafe") = true ∧
    sanitizeRustCompletion asciiUOps (pstr "unsafe") =
      some (pstr "disallowed usage of unsafe") := by
  constructor
  · decide
  · decide

/-- Closed witness for `sanitize_clean_on_charset` on a concrete clean
string. -/
theorem sanitize_clean_on_charset_witness :
    charsetOnly (pstr "let x be 42") = true ∧
    sanitizeRustCompletion asciiUOps (pstr "let x be 42") = none :=
  ⟨by decide, sanitize_clean_on_charset asciiUOps (pstr "let x be 42")
    (by decide) rfl rfl (by decide)⟩

/-- C4 counterexample: with the toolchain present and an empty (hence
invalid) completion, the run does terminate at the validate state as
filtered — but a process HAS been spawned before the rejection: the
`rustc --version` preflight probe of `_check_rustc_available`, which runs
before `_validate_completion`. -/
theorem validate_spawn_counterexample :
    validateCompletion (pstr "") = some (pstr "empty completion") ∧
    startsWithB (pstr "filtered:")
      (rustUnsafeExecute asciiUOps argsAdd envOk (pstr "")).1.result =
      true ∧
    (rustUnsafeExecute asciiUOps argsAdd envOk (pstr "")).2 =
      [ProcEvent.rustcProbe] ∧
    ¬ (rustUnsafeExecute asciiUOps argsAdd envOk (pstr "")).2 = [] := by
  exact ⟨by decide, by decide, by decide, by decide⟩

/-- C4 (amended): for every completion failing validation, once the
toolchain preflight has succeeded the run terminates at the validate
state as filtered (`result` prefixed `filtered:`,
`error_type = compile_error`, `passed = false`), and the only process
spawned before or during the rejection is the `rustc --version`
preflight probe — no process ever runs on the candidate's code. -/
theorem validate_filtered_probe_only (U : UOps) (a : RustArgs)
    (env : RunEnv) (completion verr : PyStr)
    (hava : (checkRustcAvailable env.rustcProbeRes).1 = true)
    (hv : validateCompletion completion = some verr) :
    (rustUnsafeExecute U a env completion).1.result =
      pstr "filtered: " ++ verr ∧
    (rustUnsafeExecute U a env completion).1.error_type =
      some (pstr "compile_error") ∧
    (rustUnsafeExecute U a env completion).1.passed = false ∧
    (rustUnsafeExecute U a env completion).2 = [ProcEvent.rustcProbe] := by
  cases hpr : env.rustcProbeRes <;> rw [hpr] at hava <;>
    simp_all [rustUnsafeExecute, checkRustcAvailable, hv]

/-- Closed witness for `validate_filtered_probe_only` on the empty
completion. -/
theorem validate_filtered_probe_only_witness :
    (rustUnsafeExecute asciiUOps argsAdd envOk (pstr "")).1.result =
      pstr "filtered: " ++ pstr "empty completion" ∧
    (rustUnsafeExecute asciiUOps argsAdd envOk (pstr "")).1.error_type =
      some (pstr "compile_error") ∧
    (rustUnsafeExecute asciiUOps argsAdd envOk (pstr "")).1.passed =
      false ∧
    (rustUnsafeExecute asciiUOps argsAdd envOk (pstr "")).2 =
      [ProcEvent.rustcProbe] :=
  validate_filtered_probe_only asciiUOps argsAdd envOk (pstr "")
    (pstr "empty completion") (by decide) (by decide)

/-- C2 counterexample: a policy-rejected completion is never compiled
(only the preflight probe runs), but its legacy `result` string starts
with `failed:`, not `filtered:`. -/
theorem policy_reject_counterexample :
    sanitizeRustCompletion asciiUOps
        (extractFunctionBody policyBody (pstr "add")) =
      some (pstr "disallowed usage of std::process") ∧
    (rustUnsafeExecute asciiUOps argsAdd envOk policyBody).2 =
      [ProcEvent.rustcProbe] ∧
    startsWithB (pstr "filtered:")
      (rustUnsafeExecute asciiUOps argsAdd envOk policyBody).1.result =
      false ∧
    startsWithB (pstr "failed:")
      (rustUnsafeExecute asciiUOps argsAdd envOk policyBody).1.result =
      true := by
  exact ⟨by decide, by decide, by decide, by decide⟩

/-- C2 (amended): for every completion that the policy engine rejects
(with enforcement on, after a successful preflight and validation), the
pipeline never invokes the compiler — the only spawned process is the
toolchain probe — and the legacy `result` string starts with `failed:`
carrying the violation; the `filtered:` prefix is used by the
validation stage, not the policy stage. -/
theorem policy_reject_no_compile (U : UOps) (a : RustArgs) (env : RunEnv)
    (completion viol : PyStr)
    (hava : (checkRustcAvailable env.rustcProbeRes).1 = true)
    (hv : validateCompletion completion = none)
    (hep : a.enforcePolicy = true)
    (hs : sanitizeRustCompletion U
      (extractFunctionBody completion a.entryPoint) = some viol) :
    (rustUnsafeExecute U a env completion).2 = [ProcEvent.rustcProbe] ∧
    (rustUnsafeExecute U a env completion).1.result =
      pstr "failed: " ++ viol ∧
    (rustUnsafeExecute U a env completion).1.error_type =
      some (pstr "compile_error") ∧
    (rustUnsafeExecute U a env completion).1.passed = false := by
  cases hpr : env.rustcProbeRes <;> rw [hpr] at hava <;>
    simp_all [rustUnsafeExecute, checkRustcAvailable, hv, hep, hs]

/-- Closed witness for `policy_reject_no_compile` on the
`std::process` completion. -/
theorem policy_reject_no_compile_witness :
    (rustUnsafeExecute asciiUOps argsAdd envOk policyBody).2 =
      [ProcEvent.rustcProbe] ∧
    (rustUnsafeExecute asciiUOps argsAdd envOk policyBody).1.result =
      pstr "failed: " ++ pstr "disallowed usage of std::process" ∧
    (rustUnsafeExecute asciiUOps argsAdd envOk policyBody).1.error_type =
      some (pstr "compile_error") ∧
    (rustUnsafeExecute asciiUOps argsAdd envOk policyBody).1.passed =
      false :=
  policy_reject_no_compile asciiUOps argsAdd envOk policyBody
    (pstr "disallowed usage of std::process") (by decide) (by decide)
    (by decide) (by decide)

/-- C3 counterexample: under the docker sandbox a compile-phase timeout
is surfaced as exit code 124 (`run_rustc_in_docker` catches
`TimeoutExpired`), which the orchestrator classifies as `compile_error`,
not `compile_timeout`. -/
theorem compile_timeout_docker_counterexample :
    (rustUnsafeExecute asciiUOps argsAdd
        { envOk with compileRaw := .timedOut } addBody).1.error_type =
      some (pstr "compile_error") ∧
    ¬ (rustUnsafeExecute asciiUOps argsAdd
        { envOk with compileRaw := .timedOut } addBody).1.error_type =
      some (pstr "compile_timeout") ∧
    (rustUnsafeExecute asciiUOps argsAdd
        { envOk with compileRaw := .timedOut } addBody).1.stderr =
      pstr "Command timed out" := by
  exact ⟨by decide, by decide⟩

/-- C3 (amended): when the compile phase exceeds its budget (after a
successful preflight, validation and policy check), the test phase is
never attempted, and the classification depends on the path: the
unsandboxed path (sandbox module unavailable, or `sandbox_mode="none"`)
classifies it as `compile_timeout`; the docker and firejail paths catch
the timeout inside the wrapper, return exit code 124 with stderr
`"Command timed out"`, and the orchestrator classifies that as
`compile_error`. -/
theorem compile_timeout_classification (U : UOps) (a : RustArgs)
    (env : RunEnv) (completion : PyStr)
    (hava : (checkRustcAvailable env.rustcProbeRes).1 = true)
    (hv : validateCompletion completion = none)
    (hpol : (if a.enforcePolicy then sanitizeRustCompletion U
      (extractFunctionBody completion a.entryPoint) else none) = none)
    (hcomp : env.compileRaw = .timedOut) :
    ((env.sandboxAvailable = false ∨ a.sandboxMode = some (pstr "none")) →
      (rustUnsafeExecute U a env completion).1.error_type =
        some (pstr "compile_timeout") ∧
      (rustUnsafeExecute U a env completion).2 =
        [ProcEvent.rustcProbe, ProcEvent.compileProc]) ∧
    (env.sandboxAvailable = true → a.sandboxMode = some (pstr "docker") →
      env.sandbox.dockerSetupErr = none →
      (rustUnsafeExecute U a env completion).1.error_type =
        some (pstr "compile_error") ∧
      (rustUnsafeExecute U a env completion).1.stderr =
        pstr "Command timed out" ∧
      (rustUnsafeExecute U a env completion).2 =
        [ProcEvent.rustcProbe, ProcEvent.compileProc]) ∧
    (env.sandboxAvailable = true →
      a.sandboxMode = some (pstr "firejail") →
      (rustUnsafeExecute U a env completion).1.error_type =
        some (pstr "compile_error") ∧
      (rustUnsafeExecute U a env completion).1.stderr =
        pstr "Command timed out" ∧
      (rustUnsafeExecute U a env completion).2 =
        [ProcEvent.rustcProbe, ProcEvent.compileProc]) := by
  refine ⟨?_, ?_, ?_⟩
  · rintro (hsa | hsm) <;>
      cases hpr : env.rustcProbeRes <;> rw [hpr] at hava <;>
      simp_all [rustUnsafeExecute, checkRustcAvailable, runRawDirect] <;>
      decide
  · intro hsa hsm hsd
    have hne : ¬ (pstr "docker") = (pstr "none") := by decide
    cases hpr : env.rustcProbeRes <;> rw [hpr] at hava <;>
      simp_all [rustUnsafeExecute, checkRustcAvailable, runRustcSandboxed,
        resolveMode, runRustcInDocker, firstNonEmpty] <;>
      decide
  · intro hsa hsm
    have hne : ¬ (pstr "firejail") = (pstr "none") := by decide
    have hne2 : ¬ (pstr "firejail") = (pstr "docker") := by decide
    cases hpr : env.rustcProbeRes <;> rw [hpr] at hava <;>
      simp_all [rustUnsafeExecute, checkRustcAvailable, runRustcSandboxed,
        resolveMode, runWithFirejail, firstNonEmpty] <;>
      decide

/-- Closed witness for `compile_timeout_classification` under the docker
path and the unsandboxed path. -/
theorem compile_timeout_classification_witness :
    ((({ envOk with compileRaw := .timedOut } : RunEnv).sandboxAvailable =
        false ∨
      argsAdd.sandboxMode = some (pstr "none")) →
      (rustUnsafeExecute asciiUOps argsAdd
        { envOk with compileRaw := .timedOut } addBody).1.error_type =
        some (pstr "compile_timeout") ∧
      (rustUnsafeExecute asciiUOps argsAdd
        { envOk with compileRaw := .timedOut } addBody).2 =
        [ProcEvent.rustcProbe, ProcEvent.compileProc]) ∧
    (({ envOk with compileRaw := .timedOut } : RunEnv).sandboxAvailable =
        true →
      argsAdd.sandboxMode = some (pstr "docker") →
      ({ envOk with compileRaw := .timedOut } :
        RunEnv).sandbox.dockerSetupErr = none →
      (rustUnsafeExecute asciiUOps argsAdd
        { envOk with compileRaw := .timedOut } addBody).1.error_type =
        some (pstr "compile_error") ∧
      (rustUnsafeExecute asciiUOps argsAdd
        { envOk with compileRaw := .timedOut } addBody).1.stderr =
        pstr "Command timed out" ∧
      (rustUnsafeExecute asciiUOps argsAdd
        { envOk with compileRaw := .timedOut } addBody).2 =
        [ProcEvent.rustcProbe, ProcEvent.compileProc]) ∧
    (({ envOk with compileRaw := .timedOut } : RunEnv).sandboxAvailable =
        true →
      argsAdd.sandboxMode = some (pstr "firejail") →
      (rustUnsafeExecute asciiUOps argsAdd
        { envOk with compileRaw := .timedOut } addBody).1.error_type =
        some (pstr "compile_error") ∧
      (rustUnsafeExecute asciiUOps argsAdd
        { envOk with compileRaw := .timedOut } addBody).1.stderr =
        pstr "Command timed out" ∧
      (rustUnsafeExecute asciiUOps argsAdd
        { envOk with compileRaw := .timedOut } addBody).2 =
        [ProcEvent.rustcProbe, ProcEvent.compileProc]) :=
  compile_timeout_classification asciiUOps argsAdd
    { envOk with compileRaw := .timedOut } addBody (by decide) (by decide)
    (by decide) (by decide)

/-- A clippy phase that lets execution continue never touches the
`passed`, `compile_ok`, `test_ok` or `error_type` fields. -/
theorem runClippyPhase_continue (req cargo : Bool) (co : ClippyOutcome)
    (rd rd' : ResultDict) (ev : List ProcEvent)
    (h : runClippyPhase req cargo co rd = (rd', true, ev)) :
    rd'.error_type = rd.error_type ∧ rd'.passed = rd.passed ∧
    rd'.compile_ok = rd.compile_ok ∧ rd'.test_ok = rd.test_ok := by
  unfold runClippyPhase at h
  cases cargo <;> try dsimp only at h
  · cases req <;> try dsimp only at h
    · simp only [Prod.mk.injEq] at h
      obtain ⟨h1, -⟩ := h
      rw [← h1]
      exact ⟨rfl, rfl, rfl, rfl⟩
    · simp only [Prod.mk.injEq] at h
      exact absurd h.2.1 (by decide)
  · cases co with
    | ran ok st =>
      cases ok <;> try dsimp only at h
      · cases req <;> try dsimp only at h
        · cases hb : !(st == []) && containsB (pstr "infra:") st <;>
            (rw [hb] at h
             dsimp only at h
             simp only [Prod.mk.injEq] at h
             obtain ⟨h1, -⟩ := h
             rw [← h1]
             exact ⟨rfl, rfl, rfl, rfl⟩)
        · cases hb : !(st == []) && containsB (pstr "infra:") st <;>
            (rw [hb] at h
             dsimp only at h
             simp only [Prod.mk.injEq] at h
             exact absurd h.2.1 (by decide))
      · simp only [Prod.mk.injEq] at h
        obtain ⟨h1, -⟩ := h
        rw [← h1]
        exact ⟨rfl, rfl, rfl, rfl⟩
    | timedOut =>
      cases req <;> try dsimp only at h
      · simp only [Prod.mk.injEq] at h
        obtain ⟨h1, -⟩ := h
        rw [← h1]
        exact ⟨rfl, rfl, rfl, rfl⟩
      · simp only [Prod.mk.injEq] at h
        exact absurd h.2.1 (by decide)
    | raised m =>
      cases req <;> try dsimp only at h
      · simp only [Prod.mk.injEq] at h
        obtain ⟨h1, -⟩ := h
        rw [← h1]
        exact ⟨rfl, rfl, rfl, rfl⟩
      · simp only [Prod.mk.injEq] at h
        exact absurd h.2.1 (by decide)

/-- No clippy-phase branch ever touches the `passed` field. -/
theorem runClippyPhase_passed (req cargo : Bool) (co : ClippyOutcome)
    (rd : ResultDict) :
    (runClippyPhase req cargo co rd).1.passed = rd.passed := by
  unfold runClippyPhase
  cases cargo <;> cases req <;> cases co <;> try rfl
  all_goals rename_i ok st
  all_goals cases ok <;>
    cases hb : !(st == []) && containsB (pstr "infra:") st <;>
    dsimp only <;> rw [hb] <;> rfl

/-- The single result dictionary of `_rust_unsafe_execute` satisfies the
pass/fail invariant: `passed` is set only on the full success path, where
`compile_ok` and `test_ok` are `True` and no `error_type` was ever
assigned. -/
theorem rustUnsafeExecute_passed_inv (U : UOps) (a : RustArgs)
    (env : RunEnv) (completion : PyStr)
    (h : (rustUnsafeExecute U a env completion).1.passed = true) :
    (rustUnsafeExecute U a env completion).1.compile_ok = some true ∧
    (rustUnsafeExecute U a env completion).1.test_ok = some true ∧
    (rustUnsafeExecute U a env completion).1.error_type = none := by
  generalize hg : rustUnsafeExecute U a env completion = out at h ⊢
  unfold rustUnsafeExecute at hg
  cases henv : env.rustcProbeRes <;> rw [henv] at hg <;>
    dsimp only [checkRustcAvailable] at hg
  case badExit => rw [← hg] at h; simp at h
  case notFound => rw [← hg] at h; simp at h
  case timedOut => rw [← hg] at h; simp at h
  case errOther => rw [← hg] at h; simp at h
  split at hg
  · rw [← hg] at h; simp at h
  cases hval : validateCompletion completion <;> rw [hval] at hg <;>
    dsimp only at hg
  case some verr => rw [← hg] at h; simp at h
  case none =>
  cases hpol : (if a.enforcePolicy = true then
      sanitizeRustCompletion U (extractFunctionBody completion a.entryPoint)
    else none) <;> rw [hpol] at hg <;> dsimp only at hg
  case some viol => rw [← hg] at h; simp at h
  case none =>
  cases hcres : (if env.sandboxAvailable &&
      !(a.sandboxMode == some (pstr "none")) then
      runRustcSandboxed U env.sandbox a.sandboxMode env.compileRaw
    else runRawDirect env.compileRaw) <;> rw [hcres] at hg <;>
    dsimp only at hg
  case sandboxErr m => rw [← hg] at h; simp at h
  case timeoutRaised => rw [← hg] at h; simp at h
  case otherRaised m => rw [← hg] at h; simp at h
  case ok cr =>
  cases hrc : cr.returncode == 0
  case false =>
    rw [hrc] at hg
    rw [if_neg (by simp)] at hg
    rw [← hg] at h; simp at h
  case true =>
  rw [hrc] at hg
  rw [if_pos rfl] at hg
  cases hclip : runClippyPhase a.clippyRequired env.cargoPresent env.clippy
      (if env.binaryExists = true then
        { compile_ok := some true, test_ok := none,
          clippy_ok := none,
          compile_time_ms := some ⌊env.compileTime * 1000⌋,
          binary_size_bytes := some env.binarySize, error_type := none,
          stderr := [], passed := false,
          main_free := checkMainFree completion, result := [] }
      else
        { compile_ok := some true, test_ok := none,
          clippy_ok := none,
          compile_time_ms := some ⌊env.compileTime * 1000⌋,
          binary_size_bytes := none, error_type := none, stderr := [],
          passed := false, main_free := checkMainFree completion,
          result := [] }) with
  | mk rd3 rest =>
  cases rest with
  | mk cflag cev =>
  rw [hclip] at hg
  cases cflag
  case false =>
    dsimp only at hg
    rw [← hg] at h
    have hp := runClippyPhase_passed a.clippyRequired env.cargoPresent
      env.clippy (if env.binaryExists = true then
        { compile_ok := some true, test_ok := none,
          clippy_ok := none,
          compile_time_ms := some ⌊env.compileTime * 1000⌋,
          binary_size_bytes := some env.binarySize, error_type := none,
          stderr := [], passed := false,
          main_free := checkMainFree completion, result := [] }
      else
        { compile_ok := some true, test_ok := none,
          clippy_ok := none,
          compile_time_ms := some ⌊env.compileTime * 1000⌋,
          binary_size_bytes := none, error_type := none, stderr := [],
          passed := false, main_free := checkMainFree completion,
          result := [] })
    rw [hclip] at hp
    dsimp only at h hp
    rw [h] at hp
    split at hp <;> simp at hp
  case true =>
    dsimp only at hg
    obtain ⟨e1, e2, e3, e4⟩ := runClippyPhase_continue
      a.clippyRequired env.cargoPresent env.clippy _ _ _ hclip
    have hrd3err : rd3.error_type = none := by
      rw [e1]; split <;> rfl
    have hrd3co : rd3.compile_ok = some true := by
      rw [e3]; split <;> rfl
    have hrd3p : rd3.passed = false := by
      rw [e2]; split <;> rfl
    cases htres : (if env.sandboxAvailable &&
        !(a.sandboxMode == some (pstr "none")) then
        runBinarySandboxed env.sandbox a.sandboxMode env.testRaw
      else runRawDirect env.testRaw) <;> rw [htres] at hg <;>
      dsimp only at hg
    case sandboxErr m =>
      rw [← hg] at h; dsimp only at h; rw [hrd3p] at h
      exact Bool.noConfusion h
    case timeoutRaised =>
      rw [← hg] at h; dsimp only at h; rw [hrd3p] at h
      exact Bool.noConfusion h
    case otherRaised m =>
      rw [← hg] at h; dsimp only at h; rw [hrd3p] at h
      exact Bool.noConfusion h
    case ok tr =>
    cases hrt : tr.returncode == 0
    case false =>
      rw [hrt] at hg
      rw [if_neg (by simp)] at hg
      rw [← hg] at h; dsimp only at h; rw [hrd3p] at h
      exact Bool.noConfusion h
    case true =>
      rw [hrt] at hg
      rw [if_pos rfl] at hg
      rw [← hg]
      exact ⟨hrd3co, rfl, hrd3err⟩

/-- C1: for every `(problem, completion)` pair, if the record returned by
`rust_check_correctness` has `passed = true`, then `compile_ok` and
`test_ok` are both `True` and `error_type` is null — for any environment
behaviour, any watchdog outcome, and both the child-result and
watchdog-fallback merge paths. -/
theorem passed_implies_ok (U : UOps) (a : RustArgs) (env : RunEnv)
    (completion : PyStr) (cid : Option Int) (produced alive : Bool)
    (h : (rustCheckCorrectness a completion cid
        (if produced then some (rustUnsafeExecute U a env completion).1
         else none) alive).1.passed = true) :
    (rustCheckCorrectness a completion cid
        (if produced then some (rustUnsafeExecute U a env completion).1
         else none) alive).1.compile_ok = some true ∧
    (rustCheckCorrectness a completion cid
        (if produced then some (rustUnsafeExecute U a env completion).1
         else none) alive).1.test_ok = some true ∧
    (rustCheckCorrectness a completion cid
        (if produced then some (rustUnsafeExecute U a env completion).1
         else none) alive).1.error_type = none := by
  cases produced with
  | false =>
    exfalso
    simp only [if_neg Bool.false_ne_true] at h
    exact absurd h (by simp [rustCheckCorrectness, watchdogDict,
      mergeRecord])
  | true =>
    simp only [if_pos rfl] at h ⊢
    exact rustUnsafeExecute_passed_inv U a env completion h

/-- Closed witness for `passed_implies_ok` on a fully successful run. -/
theorem passed_implies_ok_witness :
    (rustCheckCorrectness argsAdd addBody none
        (if true then some (rustUnsafeExecute asciiUOps argsAdd envOk
          addBody).1 else none) false).1.compile_ok = some true ∧
    (rustCheckCorrectness argsAdd addBody none
        (if true then some (rustUnsafeExecute asciiUOps argsAdd envOk
          addBody).1 else none) false).1.test_ok = some true ∧
    (rustCheckCorrectness argsAdd addBody none
        (if true then some (rustUnsafeExecute asciiUOps argsAdd envOk
          addBody).1 else none) false).1.error_type = none :=
  passed_implies_ok asciiUOps argsAdd envOk addBody none true false
    (by decide)

end HumanEvalRust
